import Mathlib

/-!
Verification of the mseed2sac natural-language specification against the
program sources (libmseed record codec / trace assembler, SAC writer,
streaming ZIP writer).  Each section embeds the relevant C functions as
executable Lean definitions, translated from the source files under
`src/libmseed` and `src/src`, and proves (or refutes) the stated claims.

Machine integers are modelled as `Nat`/`Int`; `double` arithmetic that the
claims describe only through exact comparisons is modelled as `ℚ`.
-/

namespace Mseed2Sac

/-! ## Shared constants

`libmseed.h` and `steimdata.h` are not part of the provided sources;
the constants below are modelled from the specification. -/

/-- Modelled from the spec: `libmseed.h` is missing from the sources.
High-precision time modulus: 1 tick = 1/HPTMODULUS second, HPTMODULUS = 1 000 000. -/
def HPTMODULUS : Int := 1000000

/-- Modelled from the spec: `libmseed.h` is missing from the sources.
Minimum record length: reclen must lie in [128, 1 048 576]. -/
def MINRECLEN : Int := 128

/-- Modelled from the spec: `libmseed.h` is missing from the sources.
Maximum record length: reclen must lie in [128, 1 048 576]. -/
def MAXRECLEN : Int := 1048576

/-- Modelled from the spec: `libmseed.h` is missing from the sources.
Error codes surfaced externally (the spec names NoError, EndOfFile, NotSeed,
NoBlkt1000, WrongLength, OutOfRange, UnknownFormat, SteimBadFlag,
GenericError); concrete integer values are irrelevant to the claims, so the
codes are modelled as an enumeration. -/
inductive MSError where
  | NoError
  | EndOfFile
  | NotSeed
  | NoBlkt1000
  | WrongLength
  | OutOfRange
  | UnknownFormat
  | SteimBadFlag
  | GenericError
deriving DecidableEq, Repr

/-! ## C integer helpers -/

/-- Interpret a byte (taken mod 256) as a signed `int8_t` value. -/
def toInt8 (b : Nat) : Int :=
  if b % 256 < 128 then (b % 256 : Nat) else (b % 256 : Nat) - 256

/-- Interpret a 16-bit word (taken mod 2^16) as a signed `int16_t` value. -/
def toInt16 (w : Nat) : Int :=
  if w % 2 ^ 16 < 2 ^ 15 then (w % 2 ^ 16 : Nat) else (w % 2 ^ 16 : Nat) - 2 ^ 16

/-- Interpret a 32-bit word (taken mod 2^32) as a signed `int32_t` value. -/
def toInt32 (w : Nat) : Int :=
  if w % 2 ^ 32 < 2 ^ 31 then (w % 2 ^ 32 : Nat) else (w % 2 ^ 32 : Nat) - 2 ^ 32

/-! ## C8 — SAC header layout (`src/src/sacformat.h`)

`struct SACHeader` is a packed sequence of 70 `float` fields, 40 `int32_t`
fields and 23 fixed-width character arrays.  The layout is embedded as
field-name/width lists transcribed from the struct declaration, and the
`NullSACHeader` initializer is transcribed literally. -/

/-- The 70 float fields of `struct SACHeader`, in declaration order
(each 4 bytes). -/
def sacFloatFields : List String :=
  ["delta", "depmin", "depmax", "scale", "odelta",
   "b", "e", "o", "a", "fmt",
   "t0", "t1", "t2", "t3", "t4",
   "t5", "t6", "t7", "t8", "t9",
   "f", "resp0", "resp1", "resp2", "resp3",
   "resp4", "resp5", "resp6", "resp7", "resp8",
   "resp9", "stla", "stlo", "stel", "stdp",
   "evla", "evlo", "evel", "evdp", "mag",
   "user0", "user1", "user2", "user3", "user4",
   "user5", "user6", "user7", "user8", "user9",
   "dist", "az", "baz", "gcarc", "sb",
   "sdelta", "depmen", "cmpaz", "cmpinc", "xminimum",
   "xmaximum", "yminimum", "ymaximum", "unused6", "unused7",
   "unused8", "unused9", "unused10", "unused11", "unused12"]

/-- The 40 `int32_t` fields of `struct SACHeader`, in declaration order
(each 4 bytes). -/
def sacIntFields : List String :=
  ["nzyear", "nzjday", "nzhour", "nzmin", "nzsec",
   "nzmsec", "nvhdr", "norid", "nevid", "npts",
   "nsnpts", "nwfid", "nxsize", "nysize", "unused15",
   "iftype", "idep", "iztype", "unused16", "iinst",
   "istreg", "ievreg", "ievtyp", "iqual", "isynth",
   "imagtyp", "imagsrc", "unused19", "unused20", "unused21",
   "unused22", "unused23", "unused24", "unused25", "unused26",
   "leven", "lpspol", "lovrok", "lcalda", "unused27"]

/-- The 23 character-array fields of `struct SACHeader` with their byte
widths, in declaration order. -/
def sacStrFields : List (String × Nat) :=
  [("kstnm", 8), ("kevnm", 16),
   ("khole", 8), ("ko", 8), ("ka", 8),
   ("kt0", 8), ("kt1", 8), ("kt2", 8), ("kt3", 8), ("kt4", 8),
   ("kt5", 8), ("kt6", 8), ("kt7", 8), ("kt8", 8), ("kt9", 8),
   ("kf", 8), ("kuser0", 8), ("kuser1", 8), ("kuser2", 8),
   ("kcmpnm", 8), ("knetwk", 8), ("kdatrd", 8), ("kinst", 8)]

/-- `SACHEADERLEN` from sacformat.h. -/
def SACHEADERLEN : Nat := 632

/-- `NUMFLOATHDR` from sacformat.h. -/
def NUMFLOATHDR : Nat := 70

/-- `NUMINTHDR` from sacformat.h. -/
def NUMINTHDR : Nat := 40

/-- `NUMSTRHDR` from sacformat.h. -/
def NUMSTRHDR : Nat := 23

/-- Total byte size of the header layout: floats and ints are 4 bytes each,
text fields contribute their declared widths. -/
def sacLayoutBytes : Nat :=
  4 * sacFloatFields.length + 4 * sacIntFields.length +
    (sacStrFields.map (·.2)).sum

/-- The float values of the `NullSACHeader` initializer: 14 rows of five
`-12345.` literals covering all 70 float fields. -/
def nullSACHeaderFloats : List Int := List.replicate 70 (-12345)

/-- The integer values of the `NullSACHeader` initializer: 8 rows of five
`-12345` literals covering all 40 int fields. -/
def nullSACHeaderInts : List Int := List.replicate 40 (-12345)

/-- The character-array values of the `NullSACHeader` initializer,
transcribed: `{ '-','1','2','3','4','5',' ',' ' }` for every 8-byte field and
`{ '-','1','2','3','4','5',' ',' ',...,' ' }` (16 bytes) for `kevnm`. -/
def nullSACHeaderStrs : List (List Char) :=
  [['-', '1', '2', '3', '4', '5', ' ', ' '],
   ['-', '1', '2', '3', '4', '5', ' ', ' ', ' ', ' ', ' ', ' ', ' ', ' ', ' ', ' ']] ++
  List.replicate 21 ['-', '1', '2', '3', '4', '5', ' ', ' ']

/-- The sentinel text for an unset string header field of width `w`:
"-12345" space-padded (not null-terminated) to the field width. -/
def sacStrSentinel (w : Nat) : List Char :=
  "-12345".toList ++ List.replicate (w - 6) ' '

/-! ## Steim frames (`src/libmseed/unpackdata.c`)

`steimdata.h` is not in the sources; the frame geometry is modelled from the
spec: a 64-byte frame is one 32-bit control word of sixteen 2-bit tags
followed by fifteen 4-byte work slots, each readable as 4 bytes, 2 halfwords
or 1 fullword (the C `U_DIFF` union).  The host is modelled as big-endian,
so an unswapped multi-byte read assembles bytes in memory order and
`gswap2`/`gswap4` reverse them. -/

/-- Modelled from the spec: `steimdata.h` is missing from the sources.
Work slots per frame: (64 - 4) / 4 = 15. -/
def VALS_PER_FRAME : Nat := 15

/-- A 4-byte work slot (the `U_DIFF` union), bytes in memory order. -/
structure USlot where
  b0 : Nat
  b1 : Nat
  b2 : Nat
  b3 : Nat
deriving DecidableEq, Repr

/-- `U_DIFF.fw` read as `uint32_t`, with the optional `gswap4`. -/
def uslot_fw (s : USlot) (swap : Bool) : Nat :=
  if swap then
    s.b3 % 256 * 2 ^ 24 + s.b2 % 256 * 2 ^ 16 + s.b1 % 256 * 2 ^ 8 + s.b0 % 256
  else
    s.b0 % 256 * 2 ^ 24 + s.b1 % 256 * 2 ^ 16 + s.b2 % 256 * 2 ^ 8 + s.b3 % 256

/-- `U_DIFF.hw[i]` read as `uint16_t`, with the optional `gswap2`. -/
def uslot_hw (s : USlot) (i : Nat) (swap : Bool) : Nat :=
  let p := if i = 0 then (s.b0, s.b1) else (s.b2, s.b3)
  if swap then p.2 % 256 * 2 ^ 8 + p.1 % 256 else p.1 % 256 * 2 ^ 8 + p.2 % 256

/-- A 64-byte Steim frame: control word (stored as a 4-byte slot) plus
`VALS_PER_FRAME` work slots. -/
structure FRAME where
  ctrl : USlot
  w : List USlot
deriving DecidableEq, Repr

/-- The all-zero work slot (used as out-of-range default). -/
def zeroSlot : USlot := ⟨0, 0, 0, 0⟩

/-- 2-bit compression tag for work slot `wn` of a frame with control word
`ctrl`: `(ctrl >> ((VALS_PER_FRAME-wn-1)*2)) & 0x3`. -/
def steimCompflag (ctrl wn : Nat) : Nat :=
  (ctrl >>> ((VALS_PER_FRAME - wn - 1) * 2)) &&& 0x3

/-- Differences held by one Steim-1 work slot with (masked, two-bit)
compression tag `cf`: tag 0 is header info (skipped), tag 1 four signed
8-bit differences, tag 2 two signed 16-bit differences, and tag 3 one
signed 32-bit difference.  The C `switch` also has a `default: return
MS_STBADCOMPFLAG` branch, unreachable because `cf` is masked to two bits;
the wildcard here is likewise only reachable for `cf = 3`. -/
def steim1SlotDiffs (s : USlot) (swap : Bool) (cf : Nat) : List Int :=
  match cf with
  | 0 => []
  | 1 => [toInt8 s.b0, toInt8 s.b1, toInt8 s.b2, toInt8 s.b3]
  | 2 => [toInt16 (uslot_hw s 0 swap), toInt16 (uslot_hw s 1 swap)]
  | _ => [toInt32 (uslot_fw s swap)]

/-- Walk the 15 work slots of one Steim-1 frame, appending decoded
differences to `acc` while fewer than `num` have been produced
(the `nd >= num_samples` break and the `nd < num_samples` loop bounds). -/
def steim1FrameDiffs (f : FRAME) (swap : Bool) (num : Int) (acc : List Int) :
    List Int :=
  let ctrl := uslot_fw f.ctrl swap
  (List.range VALS_PER_FRAME).foldl
    (fun acc wn =>
      if num ≤ (acc.length : Int) then acc
      else
        let ds := steim1SlotDiffs (f.w.getD wn zeroSlot) swap (steimCompflag ctrl wn)
        acc ++ ds.take (num - acc.length).toNat)
    acc

/-- The first-difference sequence decoded from Steim-1 frames
(`msr_unpack_steim1`, frame loop, lines 222-280). -/
def steim1Diffs (frames : List FRAME) (swap : Bool) (num : Int) : List Int :=
  frames.foldl (fun acc f => steim1FrameDiffs f swap num acc) []

/-- The code's sign extension of a masked field `d`: when a bit of `m2` is
set, OR with the complement of the low-bit mask `m1` (on `int32_t`;
`~m1` as an unsigned 32-bit value is `0xFFFFFFFF - m1`), else the field
itself (`*diff = (*diff & m2) ? *diff | ~m1 : *diff`). -/
def steim2SignExtend (m1 m2 d : Nat) : Int :=
  if d &&& m2 ≠ 0 then toInt32 (d ||| (0xFFFFFFFF - m1)) else (d : Int)

/-- The extraction loop of `msr_unpack_steim2` for a packed word `val`
holding `n` fields of `bits` bits: `for (i=(n-1)*bits; i >= 0; i-=bits)`
yields `(val >> i) & m1` sign-extended via `m2`/`~m1`. -/
def steim2ExtractDiffs (val bits n m1 m2 : Nat) : List Int :=
  (List.range n).map fun j =>
    steim2SignExtend m1 m2 ((val >>> ((n - 1 - j) * bits)) &&& m1)

/-- The `STEIM2_123_MASK` (tag 2) slot body of `msr_unpack_steim2`, lines
412-436: dispatch on `dnib = val >> 30 & 0x3` to one 30-bit (dnib 1), two
15-bit (dnib 2) or three 10-bit (dnib 3) differences, with the source's
`bits`/`n`/`m1`/`m2` table; any other dnib returns `MS_STBADCOMPFLAG`. -/
def steim2Slot123 (val : Nat) : Except MSError (List Int) :=
  match (val >>> 30) &&& 0x3 with
  | 1 => .ok (steim2ExtractDiffs val 30 1 0x3fffffff 0x20000000)
  | 2 => .ok (steim2ExtractDiffs val 15 2 0x00007fff 0x00004000)
  | 3 => .ok (steim2ExtractDiffs val 10 3 0x000003ff 0x00000200)
  | _ => .error .SteimBadFlag

/-- The `STEIM2_567_MASK` (tag 3) slot body of `msr_unpack_steim2`, lines
438-462: dispatch on `dnib` to five 6-bit (dnib 0), six 5-bit (dnib 1) or
seven 4-bit (dnib 2) differences; any other dnib returns
`MS_STBADCOMPFLAG`. -/
def steim2Slot567 (val : Nat) : Except MSError (List Int) :=
  match (val >>> 30) &&& 0x3 with
  | 0 => .ok (steim2ExtractDiffs val 6 5 0x0000003f 0x00000020)
  | 1 => .ok (steim2ExtractDiffs val 5 6 0x0000001f 0x00000010)
  | 2 => .ok (steim2ExtractDiffs val 4 7 0x0000000f 0x00000008)
  | _ => .error .SteimBadFlag

/-- Differences held by one Steim-2 work slot with (masked, two-bit)
compression tag `cf` (`msr_unpack_steim2`, lines 400-469): tag 0 headers,
tag 1 four signed 8-bit differences, tags 2 and 3 the packed formats.
The wildcard is only reachable for `cf = 3` (the tag is masked to
two bits). -/
def steim2SlotDiffs (s : USlot) (swap : Bool) (cf : Nat) :
    Except MSError (List Int) :=
  match cf with
  | 0 => .ok []
  | 1 => .ok [toInt8 s.b0, toInt8 s.b1, toInt8 s.b2, toInt8 s.b3]
  | 2 => steim2Slot123 (uslot_fw s swap)
  | _ => steim2Slot567 (uslot_fw s swap)

/-- Walk the 15 work slots of one Steim-2 frame, appending decoded
differences while fewer than `num` have been produced; a bad dnib aborts
with `MS_STBADCOMPFLAG`. -/
def steim2FrameDiffs (f : FRAME) (swap : Bool) (num : Int) (acc : List Int) :
    Except MSError (List Int) :=
  let ctrl := uslot_fw f.ctrl swap
  (List.range VALS_PER_FRAME).foldlM
    (fun acc wn =>
      if num ≤ (acc.length : Int) then pure acc
      else do
        let ds ← steim2SlotDiffs (f.w.getD wn zeroSlot) swap (steimCompflag ctrl wn)
        pure (acc ++ ds.take (num - acc.length).toNat))
    acc

/-- The first-difference sequence decoded from Steim-2 frames
(`msr_unpack_steim2`, frame loop, lines 388-472). -/
def steim2Diffs (frames : List FRAME) (swap : Bool) (num : Int) :
    Except MSError (List Int) :=
  frames.foldlM (fun acc f => steim2FrameDiffs f swap num acc) []

/-- The first reconstruction loop
`while (--nr > 0 && --nd > 0) last_data = *++data = *++diff + *++prev;`:
given the previous sample `prev`, the remaining differences `ds` and the
counters, return the samples written, the final `last_data`, and the
remaining differences and `nd` counter for the second loop (the
short-circuit `&&` decrements `nd` only when the `nr` test passed). -/
def steimReconA (prev : Int) (ds : List Int) (nr nd : Int) :
    List Int × Int × List Int × Int :=
  if 1 < nr then
    if 1 < nd then
      match ds with
      | [] => ([], prev, [], nd - 1)
      | d :: rest =>
        let x := prev + d
        let r := steimReconA x rest (nr - 1) (nd - 1)
        (x :: r.1, r.2.1, r.2.2.1, r.2.2.2)
    else ([], prev, ds, nd - 1)
  else ([], prev, ds, nd)

/-- The second reconstruction loop
`while (--nd > 0) last_data = *++diff + last_data;` computing the last
sample for the integrity comparison when a short count was requested. -/
def steimReconB (last : Int) (ds : List Int) (nd : Int) : Int :=
  if 1 < nd then
    match ds with
    | [] => last
    | d :: rest => steimReconB (last + d) rest (nd - 1)
  else last

/-- Result of a Steim unpack: the integration constants, the samples placed
in the output buffer, the final `last_data`, whether the Xn integrity
warning fired, and the function's return value. -/
structure SteimResult where
  x0 : Int
  xn : Int
  samples : List Int
  lastData : Int
  warn : Bool
  ret : Int
deriving DecidableEq, Repr

/-- Reconstruction and return phase shared by `msr_unpack_steim1` and
`msr_unpack_steim2` (lines 297-331 and 489-523): `nd` is the number of
decoded differences, the first sample is `x0` when `req > 0`, the first
loop consumes differences starting at index 1, the second loop folds the
rest into `last_data`, a mismatch with `xn` sets only the warning flag, and
the return value is `min req num` regardless. -/
def steimAssemble (x0 xn : Int) (diffs : List Int) (num req : Int) :
    SteimResult :=
  let nd : Int := diffs.length
  let firstSamples : List Int := if 0 < req then [x0] else []
  let a := steimReconA x0 (diffs.drop 1) req nd
  let last2 := steimReconB a.2.1 a.2.2.1 a.2.2.2
  { x0 := x0
    xn := xn
    samples := firstSamples ++ a.1
    lastData := last2
    warn := last2 != xn
    ret := if req < num then req else num }

/-- `msr_unpack_steim1` (unpackdata.c lines 177-332): returns 0 for
non-positive sample counts, otherwise reads X0 and XN from the first two
work slots of the first frame, decodes differences, reconstructs samples
and returns `min req num`; the Xn check only prints a warning. -/
def msr_unpack_steim1 (frames : List FRAME) (swap : Bool) (num req : Int) :
    SteimResult :=
  if num ≤ 0 ∨ req < 0 then ⟨0, 0, [], 0, false, 0⟩
  else
    let f0 := frames.headD ⟨zeroSlot, []⟩
    let x0 := toInt32 (uslot_fw (f0.w.getD 0 zeroSlot) swap)
    let xn := toInt32 (uslot_fw (f0.w.getD 1 zeroSlot) swap)
    steimAssemble x0 xn (steim1Diffs frames swap num) num req

/-- `msr_unpack_steim2` (unpackdata.c lines 342-524): like Steim-1 but with
the packed dnib slot formats; an invalid dnib aborts with
`MS_STBADCOMPFLAG`, and the Xn check only prints a warning. -/
def msr_unpack_steim2 (frames : List FRAME) (swap : Bool) (num req : Int) :
    Except MSError SteimResult :=
  if num ≤ 0 ∨ req < 0 then .ok ⟨0, 0, [], 0, false, 0⟩
  else
    let f0 := frames.headD ⟨zeroSlot, []⟩
    let x0 := toInt32 (uslot_fw (f0.w.getD 0 zeroSlot) swap)
    let xn := toInt32 (uslot_fw (f0.w.getD 1 zeroSlot) swap)
    (steim2Diffs frames swap num).map fun diffs =>
      steimAssemble x0 xn diffs num req

/-- Mathematical two's-complement reading of a `bits`-wide field. -/
def signedField (bits d : Nat) : Int :=
  if d < 2 ^ (bits - 1) then (d : Int) else (d : Int) - 2 ^ bits

/-- The packed-word field list as the claim describes it: `n` fields of
`bits` bits each, taken from the high end down, masked with the low-bit
mask of the width and read as two's-complement values. -/
def steim2SpecFields (val bits n : Nat) : List Int :=
  (List.range n).map fun j =>
    signedField bits ((val >>> ((n - 1 - j) * bits)) &&& (2 ^ bits - 1))

/-! ## C10 — `ms_readmsr` pack-info handling (`src/libmseed/fileutils.c`)

`readpackinfo` reports errors by returning -1 and end-of-file by returning 0.
The two call sites guard its result differently; both branch bodies are
transcribed below, including the (dead) inner `else` of the steady-state
call site. -/

/-- Result of one pack-envelope step of `ms_readmsr`: either the function
returns an error code, or it continues with an updated `packinfooffset`
(`filepos + packdatasize`). -/
inductive PackInfoStep where
  | ret (code : MSError)
  | continueWith (packinfooffset : Int)
deriving DecidableEq, Repr

/-- `ms_readmsr`, first-record (autodetect) path, lines 204-227: the guard is
`(packdatasize = readpackinfo (...)) <= 0`, distinguishing 0 (end of file)
from negative (generic error); otherwise `packinfooffset = filepos +
packdatasize`. -/
def msReadmsrInitialPackinfo (packdatasize filepos : Int) : PackInfoStep :=
  if packdatasize ≤ 0 then
    if packdatasize = 0 then .ret .EndOfFile else .ret .GenericError
  else
    .continueWith (filepos + packdatasize)

/-- `ms_readmsr`, steady-state path, lines 436-459: the guard is
`(packdatasize = readpackinfo (...)) == 0`; inside the guarded block the code
tests `packdatasize == 0` again, returning `MS_ENDOFFILE`, with an `else`
branch returning `MS_GENERROR`; otherwise `packinfooffset = filepos +
packdatasize`. -/
def msReadmsrSteadyPackinfo (packdatasize filepos : Int) : PackInfoStep :=
  if packdatasize = 0 then
    if packdatasize = 0 then .ret .EndOfFile else .ret .GenericError
  else
    .continueWith (filepos + packdatasize)

/-! ## C2 — Blockette 1000 record-length mismatch (`src/libmseed/unpack.c`,
`src/libmseed/fileutils.c`)

`msr_unpack` (lines 486-500) computes `msr->reclen = 1 << blkt_1000->reclen`,
and on mismatch with the caller-supplied `reclen` prints a warning and
*overwrites* `msr->reclen` with the caller value, continuing the parse.
`ms_readmsr` (lines 525-537) afterwards returns `MS_WRONGLENGTH` only when
the parsed record's `reclen` differs from the read length. -/

/-- Outcome of the Blockette-1000 consistency step of `msr_unpack` for a
record whose Blockette 1000 carries record-length exponent `expn` when the
caller supplied `reclen`: the resulting `msr->reclen` field and whether the
mismatch warning was printed.  Transcribed from unpack.c lines 486-500; the
branch has no error return, the parse continues in both cases. -/
def msrUnpackBlkt1000Reclen (reclen : Int) (expn : Nat) : Int × Bool :=
  let blktReclen : Int := 2 ^ expn
  if blktReclen ≠ reclen then (reclen, true) else (blktReclen, false)

/-- `ms_readmsr` post-unpack record length check (fileutils.c lines 525-537):
given the parsed record's `reclen` field and the read length, return
`MS_WRONGLENGTH` when a non-zero parsed length differs from the read length,
otherwise deliver the record with `MS_NOERROR`. -/
def msReadmsrLengthCheck (msrReclen readlen : Int) : MSError :=
  if msrReclen = 0 then .NoError
  else if msrReclen ≠ readlen then .WrongLength
  else .NoError

/-- Composition: the fate, in `ms_readmsr`, of a record whose Blockette 1000
length exponent is `expn` while records are being read at length `readlen`
(the caller-expected record length passed to `msr_unpack`). -/
def msReadmsrBlkt1000Fate (readlen : Int) (expn : Nat) : MSError :=
  msReadmsrLengthCheck (msrUnpackBlkt1000Reclen readlen expn).1 readlen

/-! ## C7 — record-length policy of the encoder (`src/libmseed/pack.c`) -/

/-- Modelled from the spec: `genutils.c`'s `get_samplesize` declaration is in
the missing `libmseed.h`; sample types are 'a' (ASCII, 1 byte), 'i' (int32,
4), 'f' (float32, 4), 'd' (float64, 8); anything else is unrecognized (0). -/
def get_samplesize (t : Char) : Int :=
  if t = 'a' then 1
  else if t = 'i' then 4
  else if t = 'f' then 4
  else if t = 'd' then 8
  else 0

/-- Modelled from the spec: `MS_ISDATAINDICATOR` lives in the missing
`libmseed.h`; a data record indicator is 'D', 'R', 'Q' or 'M'. -/
def MS_ISDATAINDICATOR (c : Char) : Bool :=
  c = 'D' || c = 'R' || c = 'Q' || c = 'M'

/-- Modelled from the spec: `libmseed.h` encoding codes; Steim-1 is 10
(the documented fallback default) and Steim-2 is 11. -/
def STEIM1 : Int := 10

/-- Modelled from the spec: Steim-2 encoding code 11. -/
def STEIM2 : Int := 11

/-- Modelled from the spec (§9 Glossary): Steim per-frame sample maxima,
Steim-1 = 60 (`STEIM1_FRAME_MAX_SAMPLES` in the missing `steimdata.h`). -/
def STEIM1_FRAME_MAX_SAMPLES : Int := 60

/-- Modelled from the spec (§9 Glossary): Steim per-frame sample maximum for
Steim-2 = 105 (`STEIM2_FRAME_MAX_SAMPLES` in the missing `steimdata.h`). -/
def STEIM2_FRAME_MAX_SAMPLES : Int := 105

/-- The record-length-exponent search of `msr_pack_header_raw` (pack.c lines
726-733): `for (reclenfind=1, reclenexp=1; reclenfind <= MAXRECLEN;
reclenexp++) { reclenfind *= 2; if (reclenfind == msr->reclen) break; }`.
The loop runs at most 21 times (2^21 > MAXRECLEN); the fuel covers that. -/
def reclenfindLoop (reclen : Int) : Nat → Int → Int → Int × Int
  | 0, find, expv => (find, expv)
  | fuel + 1, find, expv =>
    if find ≤ MAXRECLEN then
      let find' := find * 2
      if find' = reclen then (find', expv)
      else reclenfindLoop reclen fuel find' (expv + 1)
    else (find, expv)

/-- Template header fields consumed by `msr_pack` before the packing loop.
The blockette chain is abstracted to its (type, body-length) sequence. -/
structure PackTemplate where
  dataquality : Char
  reclen : Int
  byteorder : Int
  encoding : Int
  sequence_number : Int
  numsamples : Int
  sampletype : Char
  blkts : List (Nat × Int)
deriving DecidableEq, Repr

/-- Blockette-packing loop of `msr_pack_header_raw` (lines 535-793): starting
at offset 48, while a blockette remains and `offset < maxheaderlen`, a
blockette that would not fit breaks the loop with a warning; a Blockette
1000 additionally verifies that `reclen` is a power of two via the
`reclenfind` search and returns -1 (`none`) when it is not; every packed
blockette advances the offset by 4 + its body length.  On normal exit the
header length (final offset) is returned. -/
def packBlkts (reclen : Int) (maxheaderlen : Int) :
    List (Nat × Int) → Int → Option Int
  | [], offset => some offset
  | (ty, len) :: rest, offset =>
    if offset < maxheaderlen then
      if offset + 4 + len > maxheaderlen then some offset
      else if ty = 1000 then
        let r := reclenfindLoop reclen 32 1 1
        if r.1 ≠ reclen then none
        else packBlkts reclen maxheaderlen rest (offset + 4 + len)
      else packBlkts reclen maxheaderlen rest (offset + 4 + len)
    else some offset

/-- `msr_pack_header_raw` (pack.c lines 458-801) reduced to the outcome and
header length: fails when `maxheaderlen` exceeds the record length or is
smaller than 48, then packs the fixed header and the blockette chain. -/
def msr_pack_header_raw (reclen maxheaderlen : Int) (blkts : List (Nat × Int)) :
    Option Int :=
  if maxheaderlen > reclen then none
  else if maxheaderlen < 48 then none
  else packBlkts reclen maxheaderlen blkts 48

/-- How far `msr_pack` gets before its packing loop. -/
inductive PackPhase where
  /-- an error return before `malloc (msr->reclen)` (pack.c line 195) -/
  | errBeforeAlloc
  /-- an error return after the record buffer was allocated but before any
  record is handed to the sink -/
  | errAfterAllocNoEmit
  /-- the packing loop is reached with the given data offset and per-record
  sample capacity; records are emitted only past this point -/
  | reachedPackLoop (dataoffset maxsamples : Int)
deriving DecidableEq, Repr

/-- `msr_pack` (pack.c lines 163-299) up to its packing loop, in source
order: defaults for quality/reclen/byteorder/encoding, sequence-number
reset, the `[MINRECLEN, MAXRECLEN]` range check, the sample checks —
all before the `malloc` of the output record buffer — then the Blockette
1000 injection, `msr_pack_header_raw` (whose power-of-two check can fail),
the Steim 64-byte data-offset alignment, and the per-record capacity. -/
def msr_pack (t : PackTemplate) : PackPhase :=
  let dataquality := if t.dataquality = Char.ofNat 0 then 'D' else t.dataquality
  let reclen := if t.reclen = -1 then 4096 else t.reclen
  let encoding := if t.encoding = -1 then STEIM2 else t.encoding
  if reclen < MINRECLEN ∨ reclen > MAXRECLEN then .errBeforeAlloc
  else if t.numsamples ≤ 0 then .errBeforeAlloc
  else if get_samplesize t.sampletype = 0 then .errBeforeAlloc
  else if ¬ MS_ISDATAINDICATOR dataquality then .errBeforeAlloc
  else
    -- rawrec = malloc (msr->reclen) happens here
    let blkts := if (t.blkts.filter (·.1 = 1000)).isEmpty
                 then t.blkts ++ [(1000, 4)] else t.blkts
    match msr_pack_header_raw reclen reclen blkts with
    | none => .errAfterAllocNoEmit
    | some headerlen =>
      let dataoffset :=
        if encoding = STEIM1 ∨ encoding = STEIM2 then
          64 * ((headerlen + 63) / 64)
        else headerlen
      let maxdatabytes := reclen - dataoffset
      let maxsamples :=
        if encoding = STEIM1 then maxdatabytes / 64 * STEIM1_FRAME_MAX_SAMPLES
        else if encoding = STEIM2 then maxdatabytes / 64 * STEIM2_FRAME_MAX_SAMPLES
        else maxdatabytes / get_samplesize t.sampletype
      .reachedPackLoop dataoffset maxsamples

/-! ## Trace assembler (`src/libmseed/traceutils.c`, `src/libmseed/msrutils.c`)

`double` values (sample rates, tolerances, gaps) are modelled as `ℚ`; the
claims about them only involve exact arithmetic and comparisons.
`realloc`'s grown region has unspecified contents; it is modelled by an
explicit parameter `g` filling the new slots. -/

/-- `ms_dabs` (genutils.c lines 1013-1018). -/
def ms_dabs (v : ℚ) : ℚ := if v < 0 then -v else v

/-- Modelled from the spec: `MS_ISRATETOLERABLE` lives in the missing
`libmseed.h`; the default sample-rate tolerance check is
`abs (1.0 - samprate1 / samprate2) < 0.0001`. -/
def MS_ISRATETOLERABLE (a b : ℚ) : Bool := ms_dabs (1 - a / b) < 1 / 10000

/-- The `Trace` struct fields used by the assembler. -/
structure MSTrace where
  network : String
  station : String
  location : String
  channel : String
  samprate : ℚ
  starttime : Int
  endtime : Int
  sampletype : Char
  samplecnt : Int
  numsamples : Int
  datasamples : List Int
deriving DecidableEq, Repr

/-- Out-of-range default trace (list accesses in the model). -/
def defaultMSTrace : MSTrace := ⟨"", "", "", "", 0, 0, 0, 'i', 0, 0, []⟩

/-- The `MSrecord` fields used by the assembler; `hasdata` models whether
the `datasamples` pointer is non-NULL. -/
structure MSRec where
  network : String
  station : String
  location : String
  channel : String
  samprate : ℚ
  starttime : Int
  samplecnt : Int
  sampletype : Char
  numsamples : Int
  datasamples : List Int
  hasdata : Bool
deriving DecidableEq, Repr

/-- `msr_endtime` (msrutils.c): `span = (double)(samplecnt-1)/samprate *
HPTMODULUS + 0.5` when rate and count are positive, converted to
`hptime_t`; the operand is nonnegative, so the C truncation equals the
floor. -/
def msr_endtime (m : MSRec) : Int :=
  let span : Int :=
    if 0 < m.samprate ∧ 0 < m.samplecnt then
      ⌊((m.samplecnt : ℚ) - 1) / m.samprate * (HPTMODULUS : Int) + 1 / 2⌋
    else 0
  m.starttime + span

/-- The name/rate/time-span query against which `mst_findadjacent` searches
the trace chain. -/
structure AdjQuery where
  network : String
  station : String
  location : String
  channel : String
  samprate : ℚ
  sampratetol : ℚ
  starttime : Int
  endtime : Int
  timetol : ℚ
deriving DecidableEq, Repr

/-- Name match of `mst_findmatch` (traceutils.c lines 162-182). -/
def traceNamesMatch (q : AdjQuery) (t : MSTrace) : Bool :=
  q.network = t.network && q.station = t.station &&
    q.location = t.location && q.channel = t.channel

/-- The sample-rate `continue` condition of `mst_findadjacent` (lines
226-243): with tolerance -2 no check, with -1 the default
`MS_ISRATETOLERABLE` check, otherwise `fabs (samprate - mst->samprate) >
sampratetol` fails the candidate. -/
def rateContinue (samprate sampratetol trackrate : ℚ) : Bool :=
  sampratetol ≠ -2 &&
    (if sampratetol = -1 then ¬ MS_ISRATETOLERABLE samprate trackrate
     else ms_dabs (samprate - trackrate) > sampratetol)

/-- `postgap` of `mst_findadjacent` (line 248): negative = overlap,
positive = gap. -/
def postgapOf (q : AdjQuery) (t : MSTrace) : ℚ :=
  ((q.starttime - t.endtime : Int) : ℚ) / (HPTMODULUS : Int) - 1 / q.samprate

/-- `pregap` of `mst_findadjacent` (line 250). -/
def pregapOf (q : AdjQuery) (t : MSTrace) : ℚ :=
  ((t.starttime - q.endtime : Int) : ℚ) / (HPTMODULUS : Int) - 1 / q.samprate

/-- The search loop of `mst_findadjacent` (traceutils.c lines 207-284),
returning the index of the matched trace and the `whence` flag (1 append,
2 prepend).  With `timetol = -2` the time check is skipped and the nearer
gap decides `whence`; with `timetol = -1` half a sample period is used. -/
def mst_findadjacentFrom (q : AdjQuery) : List MSTrace → Nat → Option (Nat × Nat)
  | [], _ => none
  | t :: rest, idx =>
    if ¬ traceNamesMatch q t then mst_findadjacentFrom q rest (idx + 1)
    else if rateContinue q.samprate q.sampratetol t.samprate then
      mst_findadjacentFrom q rest (idx + 1)
    else
      if q.timetol = -2 then
        some (idx, if ms_dabs (postgapOf q t) < ms_dabs (pregapOf q t) then 1 else 2)
      else
        let tt := if q.timetol = -1 then 1 / 2 / q.samprate else q.timetol
        if ms_dabs (postgapOf q t) ≤ tt then some (idx, 1)
        else if ms_dabs (pregapOf q t) ≤ tt then some (idx, 2)
        else mst_findadjacentFrom q rest (idx + 1)

/-- `mst_findadjacent` over a whole trace chain. -/
def mst_findadjacent (traces : List MSTrace) (q : AdjQuery) : Option (Nat × Nat) :=
  mst_findadjacentFrom q traces 0

/-- `memmove` within a sample buffer (destination range is written from the
pre-move contents of the source range); writes past the end of the buffer
are outside the model. -/
def memmoveSamples (buf : List Int) (dst src len : Nat) : List Int :=
  (List.range buf.length).map fun i =>
    if dst ≤ i ∧ i < dst + len then buf.getD (src + (i - dst)) 0 else buf.getD i 0

/-- `memcpy` of a sample list into a buffer at a sample offset. -/
def memcpySamples (buf : List Int) (dst : Nat) (src : List Int) : List Int :=
  (List.range buf.length).map fun i =>
    if dst ≤ i ∧ i < dst + src.length then src.getD (i - dst) 0 else buf.getD i 0

/-- `mst_addmsr` (traceutils.c lines 300-391).  When the record carries
samples the trace buffer is reallocated (grown region filled with the
unspecified `g`); whence 1 copies the record's samples at the end and
updates the end time; whence 2 is the prepend path, which moves
`msr->numsamples` samples (the record's count, not the trace's) to the end
of the buffer before copying the record's samples at the front, and updates
the start time; the trace `samplecnt` grows by the record's in all cases. -/
def mst_addmsr (mst : MSTrace) (msr : MSRec) (whence : Nat) (g : Int) :
    Option MSTrace :=
  if msr.hasdata ∧ 0 ≤ msr.numsamples then
    if get_samplesize msr.sampletype = 0 then none
    else if msr.sampletype ≠ mst.sampletype then none
    else
      let grown := mst.datasamples ++ List.replicate msr.numsamples.toNat g
      if whence = 1 then
        some { mst with
          datasamples := memcpySamples grown mst.numsamples.toNat
            (msr.datasamples.take msr.numsamples.toNat)
          numsamples := mst.numsamples + msr.numsamples
          endtime := msr_endtime msr
          samplecnt := mst.samplecnt + msr.samplecnt }
      else if whence = 2 then
        let moved := if 0 < mst.numsamples then
            memmoveSamples grown msr.numsamples.toNat 0 msr.numsamples.toNat
          else grown
        some { mst with
          datasamples := memcpySamples moved 0
            (msr.datasamples.take msr.numsamples.toNat)
          numsamples := mst.numsamples + msr.numsamples
          starttime := msr.starttime
          samplecnt := mst.samplecnt + msr.samplecnt }
      else
        some { mst with
          datasamples := grown
          samplecnt := mst.samplecnt + msr.samplecnt }
  else
    if whence = 1 then
      some { mst with endtime := msr_endtime msr
                      samplecnt := mst.samplecnt + msr.samplecnt }
    else if whence = 2 then
      some { mst with starttime := msr.starttime
                      samplecnt := mst.samplecnt + msr.samplecnt }
    else some { mst with samplecnt := mst.samplecnt + msr.samplecnt }

/-- `mst_init` followed by the field copies of `mst_addmsrtogroup`
(traceutils.c lines 541-550). -/
def mst_initFromMsr (msr : MSRec) : MSTrace :=
  { network := msr.network, station := msr.station, location := msr.location,
    channel := msr.channel, samprate := msr.samprate,
    starttime := msr.starttime, endtime := 0, sampletype := msr.sampletype,
    samplecnt := 0, numsamples := 0, datasamples := [] }

/-- `mst_addmsrtogroup` (traceutils.c lines 501-577): find a matching,
time-adjacent trace and add the record at the indicated end, or create a
new trace at the end of the chain; records with no time coverage
(`samplecnt == 0 || samprate <= 0`) contribute nothing to a matched
trace. -/
def mst_addmsrtogroup (group : List MSTrace) (msr : MSRec)
    (timetol sampratetol : ℚ) (g : Int) : Option (List MSTrace) :=
  let endtime := msr_endtime msr
  match mst_findadjacent group
      ⟨msr.network, msr.station, msr.location, msr.channel,
       msr.samprate, sampratetol, msr.starttime, endtime, timetol⟩ with
  | some (i, whence) =>
    if msr.samplecnt = 0 ∨ msr.samprate ≤ 0 then some group
    else
      match mst_addmsr (group.getD i defaultMSTrace) msr whence g with
      | none => none
      | some t => some (group.set i t)
  | none =>
    match mst_addmsr (mst_initFromMsr msr) msr 1 g with
    | none => none
    | some t => some (group ++ [t])

/-- `mst_srcname` (traceutils.c): `NET_STA_LOC_CHAN`. -/
def mst_srcname (t : MSTrace) : String :=
  t.network ++ "_" ++ t.station ++ "_" ++ t.location ++ "_" ++ t.channel

/-- The swap condition of `mst_groupsort` (traceutils.c lines 796-833):
source name, then sample rate, then start time ascending, then end time
descending. -/
def sortSwapNeeded (a b : MSTrace) : Bool :=
  if mst_srcname b < mst_srcname a then true
  else if mst_srcname a = mst_srcname b then
    if b.samprate < a.samprate then true
    else if a.samprate = b.samprate then
      if b.starttime < a.starttime then true
      else if a.starttime = b.starttime then decide (a.endtime < b.endtime)
      else false
    else false
  else false

/-- One pass of the bubble sort in `mst_groupsort`: swap adjacent
out-of-order traces, reporting whether any swap occurred. -/
def bubblePass : List MSTrace → List MSTrace × Bool
  | [] => ([], false)
  | [a] => ([a], false)
  | a :: b :: rest =>
    if sortSwapNeeded a b then
      let r := bubblePass (a :: rest)
      (b :: r.1, true)
    else
      let r := bubblePass (b :: rest)
      (a :: r.1, r.2)
termination_by l => l.length

/-- `mst_groupsort` (traceutils.c lines 773-864): repeat bubble passes until
no swap occurs; the fuel bounds the number of passes (a pass count of the
list length squared always suffices for a bubble sort). -/
def mst_groupsort : Nat → List MSTrace → List MSTrace
  | 0, l => l
  | fuel + 1, l =>
    let r := bubblePass l
    if r.2 then mst_groupsort fuel r.1 else r.1

/-- `mst_addspan` (traceutils.c lines 407-487): like `mst_addmsr` but for a
raw span; the whence 2 path has the same prepend `memmove` of `numsamples`
(the span's count) samples; `samplecnt` grows by `numsamples` only when
samples are present. -/
def mst_addspan (mst : MSTrace) (starttime endtime : Int)
    (datasamples : List Int) (numsamples : Int) (sampletype : Char)
    (whence : Nat) (g : Int) : Option MSTrace :=
  if ¬ datasamples.isEmpty ∧ 0 < numsamples then
    if get_samplesize sampletype = 0 then none
    else if sampletype ≠ mst.sampletype then none
    else
      let grown := mst.datasamples ++ List.replicate numsamples.toNat g
      if whence = 1 then
        some { mst with
          datasamples := memcpySamples grown mst.numsamples.toNat
            (datasamples.take numsamples.toNat)
          numsamples := mst.numsamples + numsamples
          endtime := endtime
          samplecnt := mst.samplecnt + numsamples }
      else if whence = 2 then
        let moved := if 0 < mst.numsamples then
            memmoveSamples grown numsamples.toNat 0 numsamples.toNat
          else grown
        some { mst with
          datasamples := memcpySamples moved 0 (datasamples.take numsamples.toNat)
          numsamples := mst.numsamples + numsamples
          starttime := starttime
          samplecnt := mst.samplecnt + numsamples }
      else
        some { mst with
          datasamples := grown
          samplecnt := mst.samplecnt + numsamples }
  else
    if whence = 1 then some { mst with endtime := endtime }
    else if whence = 2 then some { mst with starttime := starttime }
    else some mst

/-- The inner candidate scan of `mst_heal` (traceutils.c lines 656-755) for
the current trace at index `ci`: skip the current trace, name mismatches
and rate-intolerable candidates; for the rest, compute the gaps, update the
(mutated) `timetol` from -1 to half the candidate's sample period, and
merge at the end (whence 1) or beginning (whence 2) of the current trace
when the respective gap is within tolerance.  Returns the matched index and
whence, plus the final `timetol` value, which persists. -/
def healScan (sampratetol : ℚ) (cur : MSTrace) (ci : Nat) :
    List MSTrace → Nat → ℚ → Option (Nat × Nat) × ℚ
  | [], _, tt => (none, tt)
  | st :: rest, j, tt =>
    if j = ci then healScan sampratetol cur ci rest (j + 1) tt
    else if ¬ (st.network = cur.network && st.station = cur.station &&
               st.location = cur.location && st.channel = cur.channel) then
      healScan sampratetol cur ci rest (j + 1) tt
    else if (if sampratetol = -1 then ¬ MS_ISRATETOLERABLE st.samprate cur.samprate
             else ms_dabs (st.samprate - cur.samprate) > sampratetol) then
      healScan sampratetol cur ci rest (j + 1) tt
    else
      let postgap : ℚ :=
        ((st.starttime - cur.endtime : Int) : ℚ) / (HPTMODULUS : Int) - 1 / cur.samprate
      let pregap : ℚ :=
        ((cur.starttime - st.endtime : Int) : ℚ) / (HPTMODULUS : Int) - 1 / cur.samprate
      let tt' := if tt = -1 then 1 / 2 / st.samprate else tt
      if ms_dabs postgap ≤ tt' then (some (j, 1), tt')
      else if ms_dabs pregap ≤ tt' then (some (j, 2), tt')
      else healScan sampratetol cur ci rest (j + 1) tt'

/-- The outer loop of `mst_heal`: for each current trace, scan for a
mergeable candidate; on a merge, splice the candidate in with
`mst_addspan` (its return value is not checked by the source), bump
`samplecnt` when the candidate had no sample buffer, unlink the candidate
and advance; otherwise advance. -/
def mst_heal_go (sampratetol : ℚ) (g : Int) :
    Nat → List MSTrace → Nat → ℚ → List MSTrace
  | 0, l, _, _ => l
  | fuel + 1, l, ci, tt =>
    if ci < l.length then
      let cur := l.getD ci defaultMSTrace
      match healScan sampratetol cur ci l 0 tt with
      | (none, tt') => mst_heal_go sampratetol g fuel l (ci + 1) tt'
      | (some (j, whence), tt') =>
        let st := l.getD j defaultMSTrace
        let cur' := (mst_addspan cur st.starttime st.endtime st.datasamples
          st.numsamples st.sampletype whence g).getD cur
        let cur'' := if st.numsamples ≤ 0 then
            { cur' with samplecnt := cur'.samplecnt + st.samplecnt }
          else cur'
        let l' := ((l.set ci cur'').eraseIdx j)
        mst_heal_go sampratetol g fuel l' (if j < ci then ci else ci + 1) tt'
    else l

/-- `mst_heal` (traceutils.c lines 634-761); the fuel (quadratic in the
chain length) covers every possible merge/advance sequence. -/
def mst_heal (l : List MSTrace) (timetol sampratetol : ℚ) (g : Int) :
    List MSTrace :=
  mst_heal_go sampratetol g (l.length * l.length + l.length + 1) l 0 timetol

/-- Insert records one at a time into an empty group with
`mst_addmsrtogroup`, then sort and heal — the assembler pipeline the claim
quantifies over (default tolerances -1.0). -/
def assemblePipeline (recs : List MSRec) (g : Int) : Option (List MSTrace) :=
  (recs.foldlM (fun grp r => mst_addmsrtogroup grp r (-1) (-1) g) []).map
    fun grp => mst_heal (mst_groupsort (grp.length * grp.length + 1) grp) (-1) (-1) g

/-- The claim's sample-rate tolerance policy: -2 skips the check, -1
applies the default `|1 - r1/r2| < 0.0001` check, any other value requires
`|r1 - r2|` within that tolerance. -/
def ratePolicyHolds (q : AdjQuery) (t : MSTrace) : Prop :=
  q.sampratetol = -2 ∨
  (q.sampratetol = -1 ∧ |1 - q.samprate / t.samprate| < 1 / 10000) ∨
  (q.sampratetol ≠ -2 ∧ q.sampratetol ≠ -1 ∧
    |q.samprate - t.samprate| ≤ q.sampratetol)

/-- The effective time tolerance: -1 means half the sample period of the
candidate span. -/
def effTimetol (q : AdjQuery) : ℚ :=
  if q.timetol = -1 then 1 / 2 / q.samprate else q.timetol

/-- A 1 Hz record with one sample [10] starting at the epoch. -/
def recPrependB : MSRec :=
  ⟨"XX", "TEST", "", "BHZ", 1, 0, 1, 'i', 1, [10], true⟩

/-- A 1 Hz record with two samples [20, 30] starting one sample period
after `recPrependB`. -/
def recPrependA : MSRec :=
  ⟨"XX", "TEST", "", "BHZ", 1, 1000000, 2, 'i', 2, [20, 30], true⟩

/-! ## C9 — ZIP entry size limits (`src/src/fdzipstream.c`) -/

/-- The running size totals of a ZIP entry being assembled
(`ZIPentry.CompressedSize` / `UncompressedSize`, both `int64_t`). -/
structure ZipEntrySizes where
  compressedSize : Int
  uncompressedSize : Int
deriving DecidableEq, Repr

/-- `zs_writeentry` (fdzipstream.c lines 190-212 and onward), for the
`ZS_STORE` method with successful writes: the single up-front size guard
`entrysize > 0xFFFFFFFF` rejects the entry (returns NULL); otherwise the
entry is recorded with compressed and uncompressed size `entrysize`.
The deflate branch differs only in the compressed byte count and shares the
same guard. -/
def zs_writeentry (entrysize : Int) : Option ZipEntrySizes :=
  if entrysize > 0xFFFFFFFF then none
  else some ⟨entrysize, entrysize⟩

/-- `zs_entrydata` (fdzipstream.c lines 500-584), `ZS_STORE` branch with
successful writes: the chunk is written and both size counters grow by
`entrysize`; the function performs no size limit check. -/
def zs_entrydata (st : ZipEntrySizes) (entrysize : Int) : Option ZipEntrySizes :=
  some ⟨st.compressedSize + entrysize, st.uncompressedSize + entrysize⟩

/-- `zs_entryend` (fdzipstream.c lines 598-634): the data description record
stores the CRC and both sizes through `packuint32`, i.e. reduced to 32 bits. -/
def zs_entryend (st : ZipEntrySizes) : Int × Int :=
  (st.compressedSize % 2 ^ 32, st.uncompressedSize % 2 ^ 32)

/-- Truncation of a wider signed value to a 32-bit `int`, two's complement:
the unique value congruent mod `2^32` lying in `[-2^31, 2^31)`. -/
def wrap32 (x : Int) : Int := (x + 2 ^ 31) % 2 ^ 32 - 2 ^ 31

/-- Modelled from the spec: BTime, the SEED binary time structure (declared
in the missing `libmseed.h`): year, day-of-year, hour, minute, second and
fractional 1/10000-second units.  The C fields are unsigned integers; the
conversion code reads them into `int` arithmetic, so they are carried here
as `Int` with validity ranges stated in the theorems. -/
structure BTime where
  year : Int
  day : Int
  hour : Int
  min : Int
  sec : Int
  fract : Int
deriving DecidableEq, Repr

/-- `ms_btime2hptime` (genutils.c lines 341-371), the glibc-derived civil
calendar formula.  C-to-model notes: `shortyear >> 2` is an arithmetic
shift, i.e. floor division by 4, which for the positive divisor 4 equals
Lean's Euclidean `/`; `! (shortyear & 3)` tests the two's-complement low
bits, i.e. the nonnegative residue `shortyear % 4 = 0` (Euclidean `%`);
`a4 / 25` and `a4 % 25` are C truncated division, `Int.tdiv`/`Int.tmod`;
`a100 >> 2` is again floor division by 4.  All intermediates are 32-bit
`int`: with the `uint16_t` year field (0-65535), `shortyear`, `a4`,
`a100`, `a400` and `intervening_leap_days` stay far inside `int` range,
but `days` and the full seconds total can overflow, so those two carry
explicit `wrap32` truncations (wrapping a `+`/`*` chain once at the end
equals wrapping every intermediate step, mod `2^32`); the `uint16_t`
fract times `HPTMODULUS/10000 = 100` is at most 6553500 and cannot
overflow; the final multiply-accumulate is 64-bit `hptime_t`. -/
def ms_btime2hptime (b : BTime) : Int :=
  let shortyear := b.year - 1900
  let a4 := shortyear / 4 + 475 - (if shortyear % 4 = 0 then 1 else 0)
  let a100 := a4.tdiv 25 - (if a4.tmod 25 < 0 then 1 else 0)
  let a400 := a100 / 4
  let intervening_leap_days := (a4 - 492) - (a100 - 19) + (a400 - 4)
  let days := wrap32 (365 * (shortyear - 70) + intervening_leap_days
    + (b.day - 1))
  wrap32 (60 * (60 * (24 * days + b.hour) + b.min) + b.sec) * HPTMODULUS
    + b.fract * (HPTMODULUS / 10000)

/-- Modelled from the spec: `MS_HPTIME2EPOCH` (declared in the missing
`libmseed.h`) reduces an HPTime tick count to POSIX epoch seconds by
dividing by HPTMODULUS with C signed 64-bit division, which truncates
toward zero (`Int.tdiv`). -/
def MS_HPTIME2EPOCH (x : Int) : Int := x.tdiv HPTMODULUS

/-- Modelled from the spec: the fields of `struct tm` produced by the C
library's `gmtime` that `ms_hptime2btime` reads — year since 1900,
zero-based day of year, and the hour/minute/second of day. -/
structure Tm where
  tm_year : Int
  tm_yday : Int
  tm_hour : Int
  tm_min : Int
  tm_sec : Int
deriving DecidableEq, Repr

/-- Proleptic-Gregorian leap-year test (divisible by 4 and not by 100, or
divisible by 400), used by the `gmtime` model. -/
def isLeap (y : Int) : Bool :=
  (y % 4 == 0 && y % 100 != 0) || y % 400 == 0

/-- Days from the POSIX epoch 1970-01-01 to January 1 of Gregorian year
`y` (negative for earlier years): 365 per year plus the intervening leap
days, via the floor leap-day count up to year `y - 1`;
`477 = 1969/4 - 1969/100 + 1969/400` recentres the count at 1970. -/
def daysJan1 (y : Int) : Int :=
  365 * (y - 1970) + (y - 1) / 4 - (y - 1) / 100 + (y - 1) / 400 - 477

/-- Epoch day `n` shifted to a count from 1601-01-01 (134774 days before
the epoch), the start of a 146097-day Gregorian 400-year cycle. -/
def gregDay1601 (n : Int) : Int := n + 134774

/-- Completed 400-year cycles between 1601-01-01 and day `n` (floor). -/
def gregEra (n : Int) : Int := gregDay1601 n / 146097

/-- Day within the 400-year cycle, in `[0, 146096]`. -/
def gregDoe (n : Int) : Int := gregDay1601 n % 146097

/-- Century within the cycle; the `min` folds the cycle's last day
(Dec 31 of the century leap year) into century 3. -/
def gregC (n : Int) : Int := min (gregDoe n / 36524) 3

/-- Day within the century, in `[0, 36524]`. -/
def gregDoc (n : Int) : Int := gregDoe n - 36524 * gregC n

/-- Quadrennium within the century. -/
def gregQ (n : Int) : Int := min (gregDoc n / 1461) 24

/-- Day within the quadrennium, in `[0, 1460]`. -/
def gregDoq (n : Int) : Int := gregDoc n - 1461 * gregQ n

/-- Year within the quadrennium; the `min` folds day 1460 (Dec 31 of a
leap year) into year 3. -/
def gregYq (n : Int) : Int := min (gregDoq n / 365) 3

/-- The Gregorian year containing epoch day `n`, by the standard
era/century/quadrennium/year decomposition of the 146097-day 400-year
cycle. -/
def yearOfDays (n : Int) : Int :=
  1601 + 400 * gregEra n + 100 * gregC n + 4 * gregQ n + gregYq n

/-- Modelled from the spec: the C library `gmtime` conversion of POSIX
epoch seconds to proleptic-Gregorian UTC calendar fields (`tm_year` =
year − 1900, `tm_yday` = zero-based day of year); negative epoch seconds
map to times before 1970 (floor split into day and second-of-day).  The
argument is the 64-bit `time_t` that `ms_hptime2btime` widens its 32-bit
`isec` into, so no further truncation happens here. -/
def gmtime (secs : Int) : Tm :=
  let days := secs / 86400
  let sod := secs % 86400
  let year := yearOfDays days
  ⟨year - 1900, days - daysJan1 year, sod / 3600, (sod % 3600) / 60, sod % 60⟩

/-- `ms_hptime2btime` (genutils.c lines 448-491).  The NULL-pointer check
and the unreachable `gmtime` failure are dropped; the single C `if` that
mutates `bfract` and `isec` is rendered as two `if`s with the same
condition.  `isec` and `ifract` are 32-bit `int` variables, so storing
the 64-bit epoch quotient and remainder into them truncates (`wrap32`),
as does the `isec -= 1` decrement; `ifract / (HPTMODULUS / 10000)` is C
truncated division of in-range `int`s (`Int.tdiv`), and the `bfract`
arithmetic (at most ±2^31/100 plus 10000) cannot overflow. -/
def ms_hptime2btime (hptime : Int) : BTime :=
  let isec := wrap32 (MS_HPTIME2EPOCH hptime)
  let ifract := wrap32 (hptime - isec * HPTMODULUS)
  let bfract := ifract.tdiv (HPTMODULUS / 10000)
  let bfract2 :=
    if hptime < 0 ∧ ifract ≠ 0 then
      10000 - (-(if ifract - bfract * (HPTMODULUS / 10000) ≠ 0
                 then bfract - 1 else bfract))
    else bfract
  let isec2 := if hptime < 0 ∧ ifract ≠ 0 then wrap32 (isec - 1) else isec
  let t := gmtime isec2
  ⟨t.tm_year + 1900, t.tm_yday + 1, t.tm_hour, t.tm_min, t.tm_sec, bfract2⟩

end Mseed2Sac

namespace Mseed2Sac

/-! ## Theorems for C8, C10, C2, C9 -/

/-- C8: the SAC header layout of `src/src/sacformat.h` is exactly 632 bytes
(`SACHEADERLEN`): 70 float32 fields, then 40 int32 fields, then 23 text
fields — one 8-character field (`kstnm`), one 16-character field (`kevnm`),
then twenty-one 8-character fields — and the `NullSACHeader` initializer
fills every field with the undefined sentinel: -12345.0 for floats, -12345
for ints, and "-12345" space-padded (not null-terminated) to the field width
for text fields, which for the 8-character fields is exactly `"-12345  "`. -/
theorem sac_header_layout_and_null_sentinels :
    sacFloatFields.length = NUMFLOATHDR ∧
    sacIntFields.length = NUMINTHDR ∧
    sacStrFields.length = NUMSTRHDR ∧
    sacLayoutBytes = SACHEADERLEN ∧
    (sacStrFields.map (·.2)) = 8 :: 16 :: List.replicate 21 8 ∧
    nullSACHeaderFloats = List.replicate NUMFLOATHDR (-12345) ∧
    nullSACHeaderInts = List.replicate NUMINTHDR (-12345) ∧
    nullSACHeaderStrs = sacStrFields.map (fun f => sacStrSentinel f.2) ∧
    (∀ s ∈ nullSACHeaderStrs, s.length ≤ 8 → s = "-12345  ".toList) := by
  refine ⟨by decide, by decide, by decide, by decide, by decide,
    by decide, by decide, by decide, ?_⟩
  decide

/-- C10: in `ms_readmsr`'s steady-state loop the `readpackinfo` failure value
-1 is never detected: the guard tests only `packdatasize == 0`, so the
`MS_GENERROR` return in its else-branch is unreachable for every input, and
-1 flows into the pack-envelope state as the next data-block size
(`packinfooffset = filepos - 1`); the initial-detection call site, testing
`<= 0`, does return `MS_GENERROR` on -1. -/
theorem ms_readmsr_steady_packinfo_error_undetected :
    (∀ fp : Int, msReadmsrSteadyPackinfo (-1) fp = .continueWith (fp + (-1))) ∧
    (∀ r fp : Int, msReadmsrSteadyPackinfo r fp ≠ .ret .GenericError) ∧
    (∀ fp : Int, msReadmsrInitialPackinfo (-1) fp = .ret .GenericError) := by
  refine ⟨fun fp => by simp [msReadmsrSteadyPackinfo], fun r fp => ?_, fun fp => by
    simp [msReadmsrInitialPackinfo]⟩
  unfold msReadmsrSteadyPackinfo
  split
  · simp_all
  · simp

/-- C2, counterexample: a record whose Blockette 1000 encodes record length
512 (exponent 9) read with caller-expected length 4096 is *not* rejected
with `WrongLength`: `msr_unpack` only warns, overwrites the parsed record
length with the caller value, and `ms_readmsr` delivers the record with
`MS_NOERROR`. -/
theorem blkt1000_reclen_mismatch_not_rejected :
    msrUnpackBlkt1000Reclen 4096 9 = (4096, true) ∧
    msReadmsrBlkt1000Fate 4096 9 = .NoError ∧
    msReadmsrBlkt1000Fate 4096 9 ≠ .WrongLength := by
  refine ⟨by decide, by decide, by decide⟩

/-- C2, amended: when the record length encoded in a Blockette 1000
(2 ^ exponent) differs from the caller-supplied expected record length,
`msr_unpack` emits a warning and forces the parsed `reclen` to the
caller-supplied value, and the record is delivered: for every caller length
and exponent `ms_readmsr` returns `MS_NOERROR`, so its `MS_WRONGLENGTH`
branch is unreachable after a successful unpack. -/
theorem blkt1000_reclen_mismatch_warns_and_delivers (reclen : Int) (expn : Nat) :
    (2 ^ expn ≠ reclen →
      msrUnpackBlkt1000Reclen reclen expn = (reclen, true)) ∧
    msReadmsrBlkt1000Fate reclen expn = .NoError := by
  constructor
  · intro h
    simp [msrUnpackBlkt1000Reclen, h]
  · unfold msReadmsrBlkt1000Fate msrUnpackBlkt1000Reclen msReadmsrLengthCheck
    rcases eq_or_ne ((2 : Int) ^ expn) reclen with h | h <;> simp [h]

/-- C2, witness for the amended theorem at reclen 4096, exponent 9. -/
theorem blkt1000_reclen_mismatch_warns_and_delivers_witness :
    msrUnpackBlkt1000Reclen 4096 9 = (4096, true) ∧
    msReadmsrBlkt1000Fate 4096 9 = .NoError := by
  refine ⟨(blkt1000_reclen_mismatch_warns_and_delivers 4096 9).1 (by decide),
    (blkt1000_reclen_mismatch_warns_and_delivers 4096 9).2⟩

/-! ### Steim lemmas (C4, C3) -/

/-- For a field below `2^bits`, the mask `m2 = 2^(bits-1)` tests exactly the
field's sign bit. -/
theorem and_msb_iff (bits d : Nat) (hd : d < 2 ^ bits) :
    (d &&& 2 ^ (bits - 1) ≠ 0) ↔ 2 ^ (bits - 1) ≤ d := by
  rw [Nat.and_two_pow]
  rcases le_or_lt (2 ^ (bits - 1)) d with h | h
  · have hb : (2 : Nat) ^ bits ≤ 2 ^ (bits - 1) * 2 := by
      rcases Nat.eq_zero_or_pos bits with h0 | h0
      · subst h0; norm_num
      · rw [← pow_succ]
        exact Nat.pow_le_pow_right (by norm_num) (by omega)
    have hq1 : 1 ≤ d / 2 ^ (bits - 1) :=
      (Nat.one_le_div_iff (Nat.pos_pow_of_pos _ (by norm_num))).2 h
    have hq2 : d / 2 ^ (bits - 1) < 2 :=
      (Nat.div_lt_iff_lt_mul (Nat.pos_pow_of_pos _ (by norm_num))).2 (by omega)
    have hq : d / 2 ^ (bits - 1) = 1 := by omega
    simp [Nat.testBit_to_div_mod, hq, h]
  · have hq : d / 2 ^ (bits - 1) = 0 := Nat.div_eq_of_lt h
    simp [Nat.testBit_to_div_mod, hq]
    omega

/-- The source's sign extension (mask with `m1 = 2^bits - 1`, and OR with
`~m1` when the `m2 = 2^(bits-1)` bit is set) computes the two's-complement
value of the field. -/
theorem se_or_eq_signed (bits d : Nat) (h1 : 1 ≤ bits) (h30 : bits ≤ 30)
    (hd : d < 2 ^ bits) :
    steim2SignExtend (2 ^ bits - 1) (2 ^ (bits - 1)) d = signedField bits d := by
  have hmul : (2 : Nat) ^ bits * 2 ^ (32 - bits) = 2 ^ 32 := by
    rw [mul_comm]; exact pow_sub_mul_pow 2 (by omega)
  have hble : (2 : Nat) ^ bits ≤ 2 ^ 30 := Nat.pow_le_pow_right (by norm_num) h30
  have hval : (2 : Nat) ^ bits * (2 ^ (32 - bits) - 1) = 2 ^ 32 - 2 ^ bits := by
    rw [Nat.mul_sub_one]; omega
  unfold steim2SignExtend signedField
  rcases le_or_lt (2 ^ (bits - 1)) d with h | h
  · rw [if_pos ((and_msb_iff bits d hd).2 h), if_neg (by omega : ¬ d < 2 ^ (bits - 1))]
    have hmask : (0xFFFFFFFF : Nat) - (2 ^ bits - 1) = 2 ^ bits * (2 ^ (32 - bits) - 1) := by
      omega
    rw [hmask, Nat.lor_comm, ← Nat.mul_add_lt_is_or hd _]
    have hlt32 : 2 ^ bits * (2 ^ (32 - bits) - 1) + d < 2 ^ 32 := by omega
    have hge31 : 2 ^ 31 ≤ 2 ^ bits * (2 ^ (32 - bits) - 1) + d := by
      have h32 : (2 : Nat) ^ 31 ≤ 2 ^ 32 - 2 ^ 30 := by norm_num
      omega
    unfold toInt32
    rw [Nat.mod_eq_of_lt hlt32, if_neg (by omega), hval]
    have hIB : (((2 : Nat) ^ bits : Nat) : Int) = (2 : Int) ^ bits := by
      push_cast; ring
    rw [← hIB]
    omega
  · rw [if_neg (by rw [and_msb_iff bits d hd]; omega), if_pos h]

/-- The extraction loop with the width-`bits` masks produces exactly the
two's-complement fields. -/
theorem extract_eq_spec (val bits n : Nat) (h1 : 1 ≤ bits) (h30 : bits ≤ 30) :
    steim2ExtractDiffs val bits n (2 ^ bits - 1) (2 ^ (bits - 1)) =
      steim2SpecFields val bits n := by
  unfold steim2ExtractDiffs steim2SpecFields
  refine List.map_congr_left fun j _ => ?_
  exact se_or_eq_signed bits _ h1 h30
    (Nat.lt_of_le_of_lt Nat.and_le_right
      (Nat.sub_lt (Nat.pos_pow_of_pos _ (by norm_num)) (by norm_num)))

/-- `extract_eq_spec` at the six literal mask pairs used by the source. -/
theorem extract_eq_spec_lit (val : Nat) :
    steim2ExtractDiffs val 30 1 0x3fffffff 0x20000000 = steim2SpecFields val 30 1 ∧
    steim2ExtractDiffs val 15 2 0x00007fff 0x00004000 = steim2SpecFields val 15 2 ∧
    steim2ExtractDiffs val 10 3 0x000003ff 0x00000200 = steim2SpecFields val 10 3 ∧
    steim2ExtractDiffs val 6 5 0x0000003f 0x00000020 = steim2SpecFields val 6 5 ∧
    steim2ExtractDiffs val 5 6 0x0000001f 0x00000010 = steim2SpecFields val 5 6 ∧
    steim2ExtractDiffs val 4 7 0x0000000f 0x00000008 = steim2SpecFields val 4 7 := by
  refine ⟨?_, ?_, ?_, ?_, ?_, ?_⟩ <;>
    [have h := extract_eq_spec val 30 1 (by norm_num) (by norm_num);
     have h := extract_eq_spec val 15 2 (by norm_num) (by norm_num);
     have h := extract_eq_spec val 10 3 (by norm_num) (by norm_num);
     have h := extract_eq_spec val 6 5 (by norm_num) (by norm_num);
     have h := extract_eq_spec val 5 6 (by norm_num) (by norm_num);
     have h := extract_eq_spec val 4 7 (by norm_num) (by norm_num)] <;>
    · norm_num at h
      exact h

set_option maxRecDepth 8000 in
/-- Characterization of the tag-2 slot body: the dnib dispatch table of
the claim, with fields read as two's-complement values. -/
theorem steim2_slot_tag2 (val : Nat) :
    steim2Slot123 val =
      (match (val >>> 30) &&& 3 with
       | 1 => .ok (steim2SpecFields val 30 1)
       | 2 => .ok (steim2SpecFields val 15 2)
       | 3 => .ok (steim2SpecFields val 10 3)
       | _ => .error .SteimBadFlag) := by
  have hd : (val >>> 30) &&& 3 ≤ 3 := Nat.and_le_right
  have h4 : (val >>> 30) &&& 3 = 0 ∨ (val >>> 30) &&& 3 = 1 ∨
      (val >>> 30) &&& 3 = 2 ∨ (val >>> 30) &&& 3 = 3 := by omega
  obtain ⟨e1, e2, e3, e4, e5, e6⟩ := extract_eq_spec_lit val
  rcases h4 with h | h | h | h <;>
    simp only [steim2Slot123, h, e1, e2, e3]

set_option maxRecDepth 8000 in
/-- Characterization of the tag-3 slot body: the dnib dispatch table of
the claim, with fields read as two's-complement values. -/
theorem steim2_slot_tag3 (val : Nat) :
    steim2Slot567 val =
      (match (val >>> 30) &&& 3 with
       | 0 => .ok (steim2SpecFields val 6 5)
       | 1 => .ok (steim2SpecFields val 5 6)
       | 2 => .ok (steim2SpecFields val 4 7)
       | _ => .error .SteimBadFlag) := by
  have hd : (val >>> 30) &&& 3 ≤ 3 := Nat.and_le_right
  have h4 : (val >>> 30) &&& 3 = 0 ∨ (val >>> 30) &&& 3 = 1 ∨
      (val >>> 30) &&& 3 = 2 ∨ (val >>> 30) &&& 3 = 3 := by omega
  obtain ⟨e1, e2, e3, e4, e5, e6⟩ := extract_eq_spec_lit val
  rcases h4 with h | h | h | h <;>
    simp only [steim2Slot567, h, e4, e5, e6]

/-- C4: Steim-2 slot decoding in `msr_unpack_steim2` — a slot tagged 10
decodes via the word's high-2-bit discriminator as one 30-bit (dnib 1),
two 15-bit (dnib 2) or three 10-bit (dnib 3) differences; a slot tagged 11
as five 6-bit (dnib 0), six 5-bit (dnib 1) or seven 4-bit (dnib 2)
differences; every extracted field is masked with the low-bit mask of its
width and, when the sign bit (the mask's MSB) is set, OR-ed with the
inverse of the mask — which equals the two's-complement value of the field;
any other dnib aborts decoding with the `SteimBadFlag` error. -/
theorem steim2_slot_decoding (s : USlot) (swap : Bool) (bits d : Nat)
    (h1 : 1 ≤ bits) (h30 : bits ≤ 30) (hd : d < 2 ^ bits) :
    (steim2SlotDiffs s swap 2 =
      (match (uslot_fw s swap >>> 30) &&& 3 with
       | 1 => .ok (steim2SpecFields (uslot_fw s swap) 30 1)
       | 2 => .ok (steim2SpecFields (uslot_fw s swap) 15 2)
       | 3 => .ok (steim2SpecFields (uslot_fw s swap) 10 3)
       | _ => .error .SteimBadFlag)) ∧
    (steim2SlotDiffs s swap 3 =
      (match (uslot_fw s swap >>> 30) &&& 3 with
       | 0 => .ok (steim2SpecFields (uslot_fw s swap) 6 5)
       | 1 => .ok (steim2SpecFields (uslot_fw s swap) 5 6)
       | 2 => .ok (steim2SpecFields (uslot_fw s swap) 4 7)
       | _ => .error .SteimBadFlag)) ∧
    steim2SignExtend (2 ^ bits - 1) (2 ^ (bits - 1)) d = signedField bits d := by
  exact ⟨steim2_slot_tag2 (uslot_fw s swap), steim2_slot_tag3 (uslot_fw s swap),
    se_or_eq_signed bits d h1 h30 hd⟩

/-- C4, witness: the slot `fe dc ba 98` (tag 10, dnib 3: three 10-bit
differences) and the 4-bit field 9, which sign-extends to -7. -/
theorem steim2_slot_decoding_witness :
    (1 ≤ 4 ∧ 4 ≤ 30 ∧ 9 < 2 ^ 4) ∧
    (steim2SlotDiffs ⟨0xfe, 0xdc, 0xba, 0x98⟩ false 2 =
      (match ((uslot_fw ⟨0xfe, 0xdc, 0xba, 0x98⟩ false) >>> 30) &&& 3 with
       | 1 => .ok (steim2SpecFields (uslot_fw ⟨0xfe, 0xdc, 0xba, 0x98⟩ false) 30 1)
       | 2 => .ok (steim2SpecFields (uslot_fw ⟨0xfe, 0xdc, 0xba, 0x98⟩ false) 15 2)
       | 3 => .ok (steim2SpecFields (uslot_fw ⟨0xfe, 0xdc, 0xba, 0x98⟩ false) 10 3)
       | _ => .error .SteimBadFlag)) ∧
    steim2SignExtend (2 ^ 4 - 1) (2 ^ (4 - 1)) 9 = signedField 4 9 := by
  refine ⟨by decide, ?_, ?_⟩
  · exact (steim2_slot_decoding ⟨0xfe, 0xdc, 0xba, 0x98⟩ false 4 9
      (by decide) (by decide) (by decide)).1
  · exact (steim2_slot_decoding ⟨0xfe, 0xdc, 0xba, 0x98⟩ false 4 9
      (by decide) (by decide) (by decide)).2.2

/-- `List.getD` through `List.drop 1`. -/
theorem getD_drop_one (l : List Int) (i : Nat) :
    (l.drop 1).getD i 0 = l.getD (i + 1) 0 := by
  cases l <;> simp

/-- `List.headD` through `List.drop 1`. -/
theorem headD_drop_one (l : List Int) :
    (l.drop 1).headD 0 = l.getD 1 0 := by
  cases l with
  | nil => simp
  | cons a t => cases t <;> simp

/-- The samples written by the first reconstruction loop satisfy the
first-difference recurrence: the first one is `prev + ds[0]`, and each
subsequent one adds the next difference. -/
theorem steimReconA_chain (ds : List Int) : ∀ (prev nr nd : Int),
    ((steimReconA prev ds nr nd).1 ≠ [] →
      (steimReconA prev ds nr nd).1.headD 0 = prev + ds.headD 0) ∧
    ∀ i : Nat, i + 1 < (steimReconA prev ds nr nd).1.length →
      (steimReconA prev ds nr nd).1.getD (i + 1) 0
        = (steimReconA prev ds nr nd).1.getD i 0 + ds.getD (i + 1) 0 := by
  induction ds with
  | nil =>
    intro prev nr nd
    unfold steimReconA
    split_ifs <;> simp
  | cons d rest ih =>
    intro prev nr nd
    unfold steimReconA
    split_ifs with h1 h2
    · simp only
      obtain ⟨ihh, iht⟩ := ih (prev + d) (nr - 1) (nd - 1)
      constructor
      · intro _
        simp
      · intro i hi
        match i with
        | 0 =>
          simp only [List.getD_cons_succ, List.getD_cons_zero]
          rcases hrec : (steimReconA (prev + d) rest (nr - 1) (nd - 1)).1 with _ | ⟨y, ys⟩
          · simp only [List.length_cons, hrec] at hi
            simp at hi
          · have := ihh (by rw [hrec]; simp)
            rw [hrec] at this
            cases rest <;> simp_all
        | i + 1 =>
          simp only [List.getD_cons_succ]
          apply iht
          simpa using hi
    · simp
    · simp

/-- Properties of the shared reconstruction-and-return phase: the return
value is `min req num` independent of the integrity check, the first sample
is X0, each further sample adds the next decoded difference, and the Xn
comparison only sets the warning flag. -/
theorem steimAssemble_spec (x0 xn : Int) (diffs : List Int) (num req : Int) :
    (steimAssemble x0 xn diffs num req).ret = min req num ∧
    (0 < req → (steimAssemble x0 xn diffs num req).samples.headD 0 = x0) ∧
    (∀ i : Nat, i + 1 < (steimAssemble x0 xn diffs num req).samples.length →
      (steimAssemble x0 xn diffs num req).samples.getD (i + 1) 0
        = (steimAssemble x0 xn diffs num req).samples.getD i 0 + diffs.getD (i + 1) 0) ∧
    (steimAssemble x0 xn diffs num req).warn
      = ((steimAssemble x0 xn diffs num req).lastData != xn) ∧
    (steimAssemble x0 xn diffs num req).x0 = x0 ∧
    (steimAssemble x0 xn diffs num req).xn = xn := by
  refine ⟨?_, ?_, ?_, rfl, rfl, rfl⟩
  · show (if req < num then req else num) = min req num
    split <;> omega
  · intro hreq
    show ((if 0 < req then [x0] else []) ++ _).headD 0 = x0
    rw [if_pos hreq]
    simp
  · intro i hi
    obtain ⟨chh, cht⟩ := steimReconA_chain (diffs.drop 1) x0 req (diffs.length : Int)
    have hs : (steimAssemble x0 xn diffs num req).samples
        = (if 0 < req then [x0] else [])
          ++ (steimReconA x0 (diffs.drop 1) req (diffs.length : Int)).1 := rfl
    rw [hs] at hi ⊢
    rcases le_or_lt req 0 with hr | hr
    · -- req ≤ 0: no first sample and the loop writes nothing
      rw [if_neg (by omega)] at hi ⊢
      have hempty : (steimReconA x0 (diffs.drop 1) req (diffs.length : Int)).1 = [] := by
        unfold steimReconA
        rw [if_neg (by omega)]
      simp only [List.nil_append, hempty] at hi
      simp at hi
    · rw [if_pos hr] at hi ⊢
      match i with
      | 0 =>
        simp only [List.singleton_append, List.getD_cons_succ, List.getD_cons_zero]
        rcases hrec : (steimReconA x0 (diffs.drop 1) req (diffs.length : Int)).1
          with _ | ⟨y, ys⟩
        · simp only [List.singleton_append, List.length_cons, hrec] at hi
          simp at hi
        · have := chh (by rw [hrec]; simp)
          rw [hrec, headD_drop_one] at this
          simpa using this
      | i + 1 =>
        simp only [List.singleton_append, List.getD_cons_succ]
        have := cht i (by simpa using hi)
        rw [getD_drop_one] at this
        exact this

/-- C3: for every Steim-1 or Steim-2 data area whose difference decode
succeeds, the decoder reconstructs samples as x0 = X0 (the forward
integration constant, work slot 0 of the first frame) and
x(i) = x(i-1) + D(i) over the decoded first differences, and returns
min(req_samples, num_samples) whether or not the final reconstructed sample
matches the reverse integration constant Xn (work slot 1 of the first
frame) — the Xn comparison only sets the warning flag, it never changes the
result or rejects the record. -/
theorem steim_reconstruction_delivers_min (frames : List FRAME) (swap : Bool)
    (num req : Int) (r2 : SteimResult)
    (hnum : 0 < num) (hreq : 0 ≤ req)
    (h2 : msr_unpack_steim2 frames swap num req = .ok r2) :
    ((msr_unpack_steim1 frames swap num req).ret = min req num ∧
     (msr_unpack_steim1 frames swap num req).x0 =
       toInt32 (uslot_fw ((frames.headD ⟨zeroSlot, []⟩).w.getD 0 zeroSlot) swap) ∧
     (msr_unpack_steim1 frames swap num req).xn =
       toInt32 (uslot_fw ((frames.headD ⟨zeroSlot, []⟩).w.getD 1 zeroSlot) swap) ∧
     (0 < req → (msr_unpack_steim1 frames swap num req).samples.headD 0
       = (msr_unpack_steim1 frames swap num req).x0) ∧
     (∀ i : Nat, i + 1 < (msr_unpack_steim1 frames swap num req).samples.length →
       (msr_unpack_steim1 frames swap num req).samples.getD (i + 1) 0
         = (msr_unpack_steim1 frames swap num req).samples.getD i 0
           + (steim1Diffs frames swap num).getD (i + 1) 0) ∧
     (msr_unpack_steim1 frames swap num req).warn
       = ((msr_unpack_steim1 frames swap num req).lastData
          != (msr_unpack_steim1 frames swap num req).xn)) ∧
    (∃ diffs, steim2Diffs frames swap num = .ok diffs ∧
     r2.ret = min req num ∧
     (0 < req → r2.samples.headD 0 = r2.x0) ∧
     (∀ i : Nat, i + 1 < r2.samples.length →
       r2.samples.getD (i + 1) 0 = r2.samples.getD i 0 + diffs.getD (i + 1) 0) ∧
     r2.warn = (r2.lastData != r2.xn)) := by
  have hguard : ¬ (num ≤ 0 ∨ req < 0) := by omega
  constructor
  · have h1 : msr_unpack_steim1 frames swap num req =
        steimAssemble
          (toInt32 (uslot_fw ((frames.headD ⟨zeroSlot, []⟩).w.getD 0 zeroSlot) swap))
          (toInt32 (uslot_fw ((frames.headD ⟨zeroSlot, []⟩).w.getD 1 zeroSlot) swap))
          (steim1Diffs frames swap num) num req := by
      unfold msr_unpack_steim1
      rw [if_neg hguard]
    rw [h1]
    obtain ⟨hret, hhead, hchain, hwarn, hx0, hxn⟩ :=
      steimAssemble_spec _ _ (steim1Diffs frames swap num) num req
    exact ⟨hret, hx0, hxn, by rw [hx0]; exact hhead, hchain, by rw [hxn]; exact hwarn⟩
  · unfold msr_unpack_steim2 at h2
    rw [if_neg hguard] at h2
    rcases hdiffs : steim2Diffs frames swap num with e | diffs
    · rw [hdiffs] at h2
      simp [Except.map] at h2
    · rw [hdiffs] at h2
      simp only [Except.map] at h2
      have hr2 : r2 = steimAssemble
          (toInt32 (uslot_fw ((frames.headD ⟨zeroSlot, []⟩).w.getD 0 zeroSlot) swap))
          (toInt32 (uslot_fw ((frames.headD ⟨zeroSlot, []⟩).w.getD 1 zeroSlot) swap))
          diffs num req := by
        cases h2
        rfl
      obtain ⟨hret, hhead, hchain, hwarn, hx0, hxn⟩ :=
        steimAssemble_spec
          (toInt32 (uslot_fw ((frames.headD ⟨zeroSlot, []⟩).w.getD 0 zeroSlot) swap))
          (toInt32 (uslot_fw ((frames.headD ⟨zeroSlot, []⟩).w.getD 1 zeroSlot) swap))
          diffs num req
      subst hr2
      exact ⟨diffs, rfl, hret, by rw [hx0]; exact hhead, hchain, by rw [hxn]; exact hwarn⟩

/-- C3, witness: a single all-zero frame with one sample requested; the
decode succeeds, returns min 1 1 = 1, and delivers sample X0 = 0. -/
theorem steim_reconstruction_delivers_min_witness :
    (0 : Int) < 1 ∧ (0 : Int) ≤ 1 ∧
    msr_unpack_steim2 [⟨zeroSlot, List.replicate 15 zeroSlot⟩] false 1 1
      = .ok ⟨0, 0, [0], 0, false, 1⟩ ∧
    ((msr_unpack_steim1 [⟨zeroSlot, List.replicate 15 zeroSlot⟩] false 1 1).ret
        = min 1 1 ∧
      (∃ diffs,
        steim2Diffs [⟨zeroSlot, List.replicate 15 zeroSlot⟩] false 1 = .ok diffs ∧
        (⟨0, 0, [0], 0, false, 1⟩ : SteimResult).ret = min 1 1)) := by
  have h2 : msr_unpack_steim2 [⟨zeroSlot, List.replicate 15 zeroSlot⟩] false 1 1
      = .ok ⟨0, 0, [0], 0, false, 1⟩ := rfl
  have h := steim_reconstruction_delivers_min
    [⟨zeroSlot, List.replicate 15 zeroSlot⟩] false 1 1
    ⟨0, 0, [0], 0, false, 1⟩ (by decide) (by decide) h2
  refine ⟨by decide, by decide, h2, h.1.1, ?_⟩
  obtain ⟨diffs, hd, hret, -⟩ := h.2
  exact ⟨diffs, hd, hret⟩

/-- The `reclenfind` doubling search, started at a power of two, never
reports success for a `reclen` that is not one of the powers of two it can
reach. -/
theorem reclenfindLoop_ne (reclen : Int) : ∀ (fuel j : Nat) (expv : Int),
    (∀ k : Nat, j < k → k ≤ j + fuel → reclen ≠ 2 ^ k) →
    reclen ≠ 2 ^ j →
    (reclenfindLoop reclen fuel (2 ^ j) expv).1 ≠ reclen := by
  intro fuel
  induction fuel with
  | zero =>
    intro j expv _ hj
    unfold reclenfindLoop
    exact fun h => hj h.symm
  | succ fuel ih =>
    intro j expv h hj
    unfold reclenfindLoop
    split_ifs with h1
    · have hpow : (2 : Int) ^ j * 2 = 2 ^ (j + 1) := by ring
      simp only [hpow]
      split_ifs with h2
      · exact absurd h2.symm (h (j + 1) (by omega) (by omega))
      · exact ih (j + 1) (expv + 1)
          (fun k hk1 hk2 => h k (by omega) (by omega)) (fun hh => h2 hh.symm)
    · exact fun h => hj h.symm

/-- C7, counterexample: the in-range, non-power-of-two record length 5000 is
*not* rejected before the output record buffer is allocated: `msr_pack`'s
pre-allocation check only tests the range [128, 1048576], and the
power-of-two test inside `msr_pack_header_raw` fires after `malloc`, so the
error is `errAfterAllocNoEmit`, not `errBeforeAlloc` (no record is emitted
either way). -/
theorem msr_pack_reclen_5000_rejected_after_alloc :
    msr_pack ⟨'D', 5000, 1, -1, 1, 100, 'i', []⟩ = .errAfterAllocNoEmit ∧
    msr_pack ⟨'D', 5000, 1, -1, 1, 100, 'i', []⟩ ≠ .errBeforeAlloc := by
  refine ⟨by decide, by decide⟩

/-- C7, amended: a record length outside [128, 1048576] (after the default
4096 is applied to the sentinel -1) makes `msr_pack` return an error before
allocating the output record buffer; an in-range record length that is not
a power of two (e.g. 5000) passes the pre-allocation range check and is
rejected by the power-of-two test in `msr_pack_header_raw` — after the
record buffer is allocated but still before any record is emitted to the
sink (stated here for templates without their own blockettes, where
`msr_pack` injects the checked Blockette 1000). -/
theorem msr_pack_reclen_policy (t : PackTemplate)
    (hq : MS_ISDATAINDICATOR
      (if t.dataquality = Char.ofNat 0 then 'D' else t.dataquality)) :
    ((if t.reclen = -1 then 4096 else t.reclen) < MINRECLEN ∨
     (if t.reclen = -1 then 4096 else t.reclen) > MAXRECLEN →
      msr_pack t = .errBeforeAlloc) ∧
    (MINRECLEN ≤ (if t.reclen = -1 then 4096 else t.reclen) →
     (if t.reclen = -1 then 4096 else t.reclen) ≤ MAXRECLEN →
     (∀ k : Nat, 1 ≤ k → k ≤ 21 →
        (if t.reclen = -1 then 4096 else t.reclen) ≠ 2 ^ k) →
     0 < t.numsamples → get_samplesize t.sampletype ≠ 0 → t.blkts = [] →
      msr_pack t = .errAfterAllocNoEmit) := by
  set R : Int := if t.reclen = -1 then 4096 else t.reclen with hRdef
  constructor
  · intro hrange
    simp only [msr_pack, ← hRdef]
    rw [if_pos hrange]
  · intro hlo hhi hpow hns hss hblk
    unfold MINRECLEN at hlo
    unfold MAXRECLEN at hhi
    have hne : (reclenfindLoop R 32 1 1).1 ≠ R := by
      have h0 : ((2 : Int) ^ 0) = 1 := by norm_num
      rw [← h0]
      apply reclenfindLoop_ne
      · intro k hk1 hk2
        rcases le_or_lt k 21 with hk | hk
        · exact hpow k (by omega) hk
        · intro he
          have h22 : (2 : Int) ^ 22 ≤ 2 ^ k :=
            pow_le_pow_right₀ (by norm_num) (by omega)
          omega
      · norm_num
        omega
    have hhdr : msr_pack_header_raw R R [(1000, 4)] = none := by
      unfold msr_pack_header_raw
      rw [if_neg (show ¬ R > R by omega), if_neg (show ¬ R < 48 by omega)]
      unfold packBlkts
      rw [if_pos (show (48 : Int) < R by omega),
        if_neg (show ¬ (48 : Int) + 4 + 4 > R by omega)]
      simp [hne]
    simp only [msr_pack, ← hRdef]
    rw [if_neg (show ¬ (R < MINRECLEN ∨ R > MAXRECLEN) by
          unfold MINRECLEN MAXRECLEN; omega),
      if_neg (show ¬ t.numsamples ≤ 0 by omega), if_neg hss,
      if_neg (by simpa using hq)]
    simp only [hblk, List.filter_nil, List.isEmpty_nil, if_true, List.nil_append]
    rw [hhdr]

/-- C7, witness for the amended theorem: out-of-range length 100 errors
before allocation; in-range non-power-of-two 5000 errors after allocation
with nothing emitted. -/
theorem msr_pack_reclen_policy_witness :
    msr_pack ⟨'D', 100, 1, -1, 1, 100, 'i', []⟩ = .errBeforeAlloc ∧
    msr_pack ⟨'D', 5000, 1, -1, 1, 100, 'i', []⟩ = .errAfterAllocNoEmit := by
  refine ⟨(msr_pack_reclen_policy ⟨'D', 100, 1, -1, 1, 100, 'i', []⟩
      (by decide)).1 (by decide),
    (msr_pack_reclen_policy ⟨'D', 5000, 1, -1, 1, 100, 'i', []⟩
      (by decide)).2 (by decide) (by decide) (by decide) (by decide)
      (by decide) rfl⟩

set_option maxHeartbeats 1600000 in
/-- C1 (code bug): the trace assembler is *not* insertion-order
insensitive, because the whence = 2 (prepend) path of `mst_addmsr` moves
only `msr->numsamples` samples — the record's count, not the trace's — so
prepending a shorter record to a longer segment overwrites and then loses
the segment's trailing samples, leaving realloc garbage `g` in their place.
Inserting [10] then [20, 30] (adjacent, same source, default tolerances)
and sort+heal yields one segment with samples [10, 20, 30]; inserting
[20, 30] then [10] yields [10, 20, g] for the arbitrary realloc fill `g` —
sample 30 is gone, and the two insertion orders disagree. -/
theorem mst_prepend_drops_trailing_samples :
    assemblePipeline [recPrependB, recPrependA] 0
      = some [⟨"XX", "TEST", "", "BHZ", 1, 0, 2000000, 'i', 3, 3, [10, 20, 30]⟩] ∧
    (∀ g : Int, assemblePipeline [recPrependA, recPrependB] g
      = some [⟨"XX", "TEST", "", "BHZ", 1, 0, 2000000, 'i', 3, 3, [10, 20, g]⟩]) ∧
    assemblePipeline [recPrependA, recPrependB] 0
      ≠ assemblePipeline [recPrependB, recPrependA] 0 := by
  have hsort : ∀ t : MSTrace, mst_groupsort 2 [t] = [t] := by
    intro t
    simp [mst_groupsort, bubblePass]
  have hheal : ∀ (t : MSTrace) (g : Int), mst_heal [t] (-1) (-1) g = [t] := by
    intro t g
    show mst_heal_go (-1) g (1 * 1 + 1 + 1) [t] 0 (-1) = [t]
    norm_num [mst_heal_go, healScan]
  have hB1 : ∀ g : Int, mst_addmsrtogroup [] recPrependB (-1) (-1) g
      = some [⟨"XX", "TEST", "", "BHZ", 1, 0, 0, 'i', 1, 1, [10]⟩] := by
    intro g
    norm_num +decide [mst_addmsrtogroup, mst_findadjacent, mst_findadjacentFrom,
      msr_endtime, mst_addmsr, mst_initFromMsr, get_samplesize, memcpySamples,
      recPrependB, HPTMODULUS, Int.toNat_ofNat, List.replicate, List.take,
      List.range_succ, List.range_zero]
  have hB2 : ∀ g : Int, mst_addmsrtogroup
        [⟨"XX", "TEST", "", "BHZ", 1, 0, 0, 'i', 1, 1, [10]⟩]
        recPrependA (-1) (-1) g
      = some [⟨"XX", "TEST", "", "BHZ", 1, 0, 2000000, 'i', 3, 3, [10, 20, 30]⟩] := by
    intro g
    norm_num +decide [mst_addmsrtogroup, mst_findadjacent, mst_findadjacentFrom,
      traceNamesMatch, rateContinue, MS_ISRATETOLERABLE, ms_dabs, postgapOf,
      pregapOf, msr_endtime, mst_addmsr, get_samplesize, memcpySamples,
      memmoveSamples, recPrependA, HPTMODULUS, defaultMSTrace, Int.toNat_ofNat,
      List.replicate, List.take, List.range_succ, List.range_zero]
  have hA1 : ∀ g : Int, mst_addmsrtogroup [] recPrependA (-1) (-1) g
      = some [⟨"XX", "TEST", "", "BHZ", 1, 1000000, 2000000, 'i', 2, 2, [20, 30]⟩] := by
    intro g
    norm_num +decide [mst_addmsrtogroup, mst_findadjacent, mst_findadjacentFrom,
      msr_endtime, mst_addmsr, mst_initFromMsr, get_samplesize, memcpySamples,
      recPrependA, HPTMODULUS, Int.toNat_ofNat, List.replicate, List.take,
      List.range_succ, List.range_zero]
  have hA2 : ∀ g : Int, mst_addmsrtogroup
        [⟨"XX", "TEST", "", "BHZ", 1, 1000000, 2000000, 'i', 2, 2, [20, 30]⟩]
        recPrependB (-1) (-1) g
      = some [⟨"XX", "TEST", "", "BHZ", 1, 0, 2000000, 'i', 3, 3, [10, 20, g]⟩] := by
    intro g
    norm_num +decide [mst_addmsrtogroup, mst_findadjacent, mst_findadjacentFrom,
      traceNamesMatch, rateContinue, MS_ISRATETOLERABLE, ms_dabs, postgapOf,
      pregapOf, msr_endtime, mst_addmsr, get_samplesize, memcpySamples,
      memmoveSamples, recPrependB, HPTMODULUS, defaultMSTrace, Int.toNat_ofNat,
      List.replicate, List.take, List.range_succ, List.range_zero]
  have hfold : ∀ (r1 r2 : MSRec) (g : Int) (l1 l2 : List MSTrace),
      mst_addmsrtogroup [] r1 (-1) (-1) g = some l1 →
      mst_addmsrtogroup l1 r2 (-1) (-1) g = some l2 →
      ([r1, r2].foldlM (fun grp r => mst_addmsrtogroup grp r (-1) (-1) g)
        ([] : List MSTrace)) = some l2 := by
    intro r1 r2 g l1 l2 h1 h2
    simp [List.foldlM, h1, h2]
  have hPipeB : ∀ g : Int, assemblePipeline [recPrependB, recPrependA] g
      = some [⟨"XX", "TEST", "", "BHZ", 1, 0, 2000000, 'i', 3, 3, [10, 20, 30]⟩] := by
    intro g
    unfold assemblePipeline
    rw [hfold _ _ _ _ _ (hB1 g) (hB2 g)]
    simp [hsort, hheal]
  have hPipeA : ∀ g : Int, assemblePipeline [recPrependA, recPrependB] g
      = some [⟨"XX", "TEST", "", "BHZ", 1, 0, 2000000, 'i', 3, 3, [10, 20, g]⟩] := by
    intro g
    unfold assemblePipeline
    rw [hfold _ _ _ _ _ (hA1 g) (hA2 g)]
    simp [hsort, hheal]
  refine ⟨hPipeB 0, hPipeA, ?_⟩
  rw [hPipeA 0, hPipeB 0]
  simp

/-- `ms_dabs` is the absolute value. -/
theorem ms_dabs_eq_abs (v : ℚ) : ms_dabs v = |v| := by
  unfold ms_dabs
  rcases lt_or_le v 0 with h | h
  · rw [if_pos h, abs_of_neg h]
  · rw [if_neg (not_lt.2 h), abs_of_nonneg h]

/-- The `continue` condition of the sample-rate check rejects a candidate
exactly when the claim's tolerance policy fails. -/
theorem rateContinue_iff (q : AdjQuery) (t : MSTrace) :
    rateContinue q.samprate q.sampratetol t.samprate = false ↔
      ratePolicyHolds q t := by
  unfold rateContinue ratePolicyHolds MS_ISRATETOLERABLE
  rcases eq_or_ne q.sampratetol (-2) with h2 | h2
  · simp [h2, ms_dabs_eq_abs]
  · rcases eq_or_ne q.sampratetol (-1) with h1 | h1
    · simp [h2, h1, ms_dabs_eq_abs]
    · simp only [h2, h1, ms_dabs_eq_abs, if_neg h1]
      simp [h2, h1]

/-- Characterization of the `mst_findadjacent` search loop, for any start
index: a returned trace matched the names and the rate policy and its
`whence` follows the gap tests (nearer gap when the time check is disabled
with -2); a `none` result means every name- and rate-matching trace failed
both gap tests (and the time check was not disabled). -/
theorem mst_findadjacentFrom_spec (q : AdjQuery) :
    ∀ (l : List MSTrace) (idx : Nat),
    (∀ i w, mst_findadjacentFrom q l idx = some (i, w) →
      idx ≤ i ∧ i - idx < l.length ∧
      traceNamesMatch q (l.getD (i - idx) defaultMSTrace) = true ∧
      ratePolicyHolds q (l.getD (i - idx) defaultMSTrace) ∧
      ((q.timetol = -2 ∧
        ((w = 1 ∧ |postgapOf q (l.getD (i - idx) defaultMSTrace)|
            < |pregapOf q (l.getD (i - idx) defaultMSTrace)|) ∨
         (w = 2 ∧ ¬ |postgapOf q (l.getD (i - idx) defaultMSTrace)|
            < |pregapOf q (l.getD (i - idx) defaultMSTrace)|))) ∨
       (q.timetol ≠ -2 ∧
        ((w = 1 ∧ |postgapOf q (l.getD (i - idx) defaultMSTrace)| ≤ effTimetol q) ∨
         (w = 2 ∧ ¬ |postgapOf q (l.getD (i - idx) defaultMSTrace)| ≤ effTimetol q ∧
           |pregapOf q (l.getD (i - idx) defaultMSTrace)| ≤ effTimetol q))))) ∧
    (mst_findadjacentFrom q l idx = none →
      ∀ t ∈ l, traceNamesMatch q t = true → ratePolicyHolds q t →
        q.timetol ≠ -2 ∧ ¬ |postgapOf q t| ≤ effTimetol q ∧
          ¬ |pregapOf q t| ≤ effTimetol q) := by
  intro l
  induction l with
  | nil =>
    intro idx
    constructor
    · intro i w h
      simp [mst_findadjacentFrom] at h
    · intro _ t ht
      simp at ht
  | cons t rest ih =>
    intro idx
    by_cases hName : traceNamesMatch q t
    · by_cases hRate : rateContinue q.samprate q.sampratetol t.samprate
      · -- rate-intolerable: skip to the rest
        have heq : mst_findadjacentFrom q (t :: rest) idx
            = mst_findadjacentFrom q rest (idx + 1) := by
          simp [mst_findadjacentFrom, hName, hRate]
        constructor
        · intro i w h
          rw [heq] at h
          have hall := (ih (idx + 1)).1 i w h
          have hk : i - idx = (i - (idx + 1)) + 1 := by omega
          rw [hk, List.getD_cons_succ]
          refine ⟨by omega, by simp only [List.length_cons]; omega,
            hall.2.2.1, hall.2.2.2.1, hall.2.2.2.2⟩
        · intro h
          rw [heq] at h
          intro t' ht' hn hr
          rcases List.mem_cons.1 ht' with rfl | h'
          · exact absurd ((rateContinue_iff q t').2 hr)
              (by simp [hRate])
          · exact (ih (idx + 1)).2 h t' h' hn hr
      · -- names and rate both pass: the gap decision
        have hRateF : rateContinue q.samprate q.sampratetol t.samprate = false := by
          simpa using hRate
        rcases eq_or_ne q.timetol (-2) with hT | hT
        · have heq : mst_findadjacentFrom q (t :: rest) idx
              = some (idx, if ms_dabs (postgapOf q t) < ms_dabs (pregapOf q t)
                  then 1 else 2) := by
            simp only [mst_findadjacentFrom]
            rw [if_neg (by simp [hName]), if_neg (by simp [hRateF]), if_pos hT]
          constructor
          · intro i w h
            rw [heq, Option.some.injEq, Prod.mk.injEq] at h
            obtain ⟨hi, hw⟩ := h
            subst hi
            simp only [Nat.sub_self, List.getD_cons_zero]
            refine ⟨le_refl _, by simp, hName, (rateContinue_iff q t).1 hRateF, ?_⟩
            left
            refine ⟨hT, ?_⟩
            rw [ms_dabs_eq_abs, ms_dabs_eq_abs] at hw
            by_cases hc : |postgapOf q t| < |pregapOf q t|
            · rw [if_pos hc] at hw
              exact .inl ⟨hw.symm, hc⟩
            · rw [if_neg hc] at hw
              exact .inr ⟨hw.symm, hc⟩
          · intro h
            rw [heq] at h
            exact absurd h (by simp)
        · by_cases hPost : ms_dabs (postgapOf q t)
              ≤ (if q.timetol = -1 then 1 / 2 / q.samprate else q.timetol)
          · have heq : mst_findadjacentFrom q (t :: rest) idx = some (idx, 1) := by
              simp only [mst_findadjacentFrom]
              rw [if_neg (by simp [hName]), if_neg (by simp [hRateF]), if_neg hT,
                if_pos hPost]
            constructor
            · intro i w h
              rw [heq, Option.some.injEq, Prod.mk.injEq] at h
              obtain ⟨hi, hw⟩ := h
              subst hi
              simp only [Nat.sub_self, List.getD_cons_zero]
              refine ⟨le_refl _, by simp, hName, (rateContinue_iff q t).1 hRateF, ?_⟩
              right
              refine ⟨hT, .inl ⟨hw.symm, ?_⟩⟩
              rw [ms_dabs_eq_abs] at hPost
              unfold effTimetol
              exact hPost
            · intro h
              rw [heq] at h
              exact absurd h (by simp)
          · by_cases hPre : ms_dabs (pregapOf q t)
                ≤ (if q.timetol = -1 then 1 / 2 / q.samprate else q.timetol)
            · have heq : mst_findadjacentFrom q (t :: rest) idx = some (idx, 2) := by
                simp only [mst_findadjacentFrom]
                rw [if_neg (by simp [hName]), if_neg (by simp [hRateF]), if_neg hT,
                  if_neg hPost, if_pos hPre]
              constructor
              · intro i w h
                rw [heq, Option.some.injEq, Prod.mk.injEq] at h
                obtain ⟨hi, hw⟩ := h
                subst hi
                simp only [Nat.sub_self, List.getD_cons_zero]
                refine ⟨le_refl _, by simp, hName, (rateContinue_iff q t).1 hRateF, ?_⟩
                right
                refine ⟨hT, .inr ⟨hw.symm, ?_, ?_⟩⟩
                · rw [ms_dabs_eq_abs] at hPost
                  unfold effTimetol
                  exact hPost
                · rw [ms_dabs_eq_abs] at hPre
                  unfold effTimetol
                  exact hPre
              · intro h
                rw [heq] at h
                exact absurd h (by simp)
            · have heq : mst_findadjacentFrom q (t :: rest) idx
                  = mst_findadjacentFrom q rest (idx + 1) := by
                simp only [mst_findadjacentFrom]
                rw [if_neg (by simp [hName]), if_neg (by simp [hRateF]), if_neg hT,
                  if_neg hPost, if_neg hPre]
              constructor
              · intro i w h
                rw [heq] at h
                have hall := (ih (idx + 1)).1 i w h
                have hk : i - idx = (i - (idx + 1)) + 1 := by omega
                rw [hk, List.getD_cons_succ]
                refine ⟨by omega, by simp only [List.length_cons]; omega,
                  hall.2.2.1, hall.2.2.2.1, hall.2.2.2.2⟩
              · intro h
                rw [heq] at h
                intro t' ht' hn hr
                rcases List.mem_cons.1 ht' with rfl | h'
                · rw [ms_dabs_eq_abs] at hPost hPre
                  exact ⟨hT, by unfold effTimetol; exact hPost,
                    by unfold effTimetol; exact hPre⟩
                · exact (ih (idx + 1)).2 h t' h' hn hr
    · -- name mismatch: skip
      have heq : mst_findadjacentFrom q (t :: rest) idx
          = mst_findadjacentFrom q rest (idx + 1) := by
        simp [mst_findadjacentFrom, hName]
      constructor
      · intro i w h
        rw [heq] at h
        have hall := (ih (idx + 1)).1 i w h
        have hk : i - idx = (i - (idx + 1)) + 1 := by omega
        rw [hk, List.getD_cons_succ]
        refine ⟨by omega, by simp only [List.length_cons]; omega,
          hall.2.2.1, hall.2.2.2.1, hall.2.2.2.2⟩
      · intro h
        rw [heq] at h
        intro t' ht' hn hr
        rcases List.mem_cons.1 ht' with rfl | h'
        · exact absurd hn (by simpa using hName)
        · exact (ih (idx + 1)).2 h t' h' hn hr

/-- C6, counterexample: with time tolerance -2.0, `mst_findadjacent` *does*
match a trace whose gaps are far outside any tolerance, setting whence from
the nearer gap — the claim as stated ("whence ... remains 0 (no match)
otherwise") predicts no match, since |postgap| ≤ -2 is impossible.  Here
the span starts 89 sample periods after the trace ends (postgap 89 s,
pregap -102 s), yet whence is set to 1. -/
theorem mst_findadjacent_timetol_neg2_matches_anyway :
    mst_findadjacent [⟨"XX", "TEST", "", "BHZ", 1, 0, 10000000, 'i', 10, 10, []⟩]
      ⟨"XX", "TEST", "", "BHZ", 1, -1, 100000000, 101000000, -2⟩ = some (0, 1) ∧
    postgapOf ⟨"XX", "TEST", "", "BHZ", 1, -1, 100000000, 101000000, -2⟩
      ⟨"XX", "TEST", "", "BHZ", 1, 0, 10000000, 'i', 10, 10, []⟩ = 89 ∧
    ¬ (|(89 : ℚ)| ≤ (-2 : ℚ)) := by
  refine ⟨?_, ?_, by norm_num⟩
  · norm_num +decide [mst_findadjacent, mst_findadjacentFrom, traceNamesMatch,
      rateContinue, MS_ISRATETOLERABLE, ms_dabs, postgapOf, pregapOf, HPTMODULUS]
  · norm_num [postgapOf, HPTMODULUS]

/-- C6, amended: adjacent-segment matching in `mst_findadjacent` — a trace
matches only when the name fields are equal and the sample-rate tolerance
policy holds (-1.0 applies the default |1 - r1/r2| < 0.0001 check, -2.0
skips the rate check, any other value requires |r1 - r2| within that
tolerance); with time tolerance -1.0 half the sample period is used; when
the time tolerance is -2.0 the time check is skipped and whence is 1 if
|postgap| < |pregap| else 2; otherwise whence is 1 (append) when |postgap|
is within the time tolerance, 2 (prepend) when |pregap| is within it, and
no trace is returned when every name- and rate-matching trace fails both
gap tests, where postgap = (span start - trace end)/HPTMODULUS - 1/samprate
and pregap = (trace start - span end)/HPTMODULUS - 1/samprate, negative
meaning overlap and positive meaning gap. -/
theorem mst_findadjacent_matching (traces : List MSTrace) (q : AdjQuery) :
    (∀ i w, mst_findadjacent traces q = some (i, w) →
      i < traces.length ∧
      traceNamesMatch q (traces.getD i defaultMSTrace) = true ∧
      ratePolicyHolds q (traces.getD i defaultMSTrace) ∧
      ((q.timetol = -2 ∧
        ((w = 1 ∧ |postgapOf q (traces.getD i defaultMSTrace)|
            < |pregapOf q (traces.getD i defaultMSTrace)|) ∨
         (w = 2 ∧ ¬ |postgapOf q (traces.getD i defaultMSTrace)|
            < |pregapOf q (traces.getD i defaultMSTrace)|))) ∨
       (q.timetol ≠ -2 ∧
        ((w = 1 ∧ |postgapOf q (traces.getD i defaultMSTrace)| ≤ effTimetol q) ∨
         (w = 2 ∧ ¬ |postgapOf q (traces.getD i defaultMSTrace)| ≤ effTimetol q ∧
           |pregapOf q (traces.getD i defaultMSTrace)| ≤ effTimetol q))))) ∧
    (mst_findadjacent traces q = none →
      ∀ t ∈ traces, traceNamesMatch q t = true → ratePolicyHolds q t →
        q.timetol ≠ -2 ∧ ¬ |postgapOf q t| ≤ effTimetol q ∧
          ¬ |pregapOf q t| ≤ effTimetol q) := by
  obtain ⟨hsome, hnone⟩ := mst_findadjacentFrom_spec q traces 0
  constructor
  · intro i w h
    have hall := hsome i w h
    rw [Nat.sub_zero] at hall
    exact ⟨hall.2.1, hall.2.2.1, hall.2.2.2.1, hall.2.2.2.2⟩
  · exact hnone

/-- C9, counterexample: a streamed entry assembled through
`zs_entrybegin`/`zs_entrydata`/`zs_entryend` is *not* rejected when its
uncompressed data exceeds 0xFFFFFFFF bytes: starting from accumulated sizes
0xFFFFFFFF, a further 100-byte chunk is accepted (`zs_entrydata` succeeds)
and the total grows past 4 GiB; the data descriptor then stores the totals
truncated to 32 bits. -/
theorem zip_streamed_entry_over_4gib_not_rejected :
    zs_entrydata ⟨0xFFFFFFFF, 0xFFFFFFFF⟩ 100
      = some ⟨0xFFFFFFFF + 100, 0xFFFFFFFF + 100⟩ ∧
    (0xFFFFFFFF + 100 : Int) > 0xFFFFFFFF ∧
    zs_entryend ⟨0xFFFFFFFF + 100, 0xFFFFFFFF + 100⟩ = (99, 99) := by
  refine ⟨by decide, by decide, by decide⟩

/-- C9, amended: the 4 GiB single-entry limit is enforced only on the
whole-buffer path: `zs_writeentry` rejects every entry whose size exceeds
0xFFFFFFFF bytes (and accepts smaller ones), while the streamed path
performs no size check — `zs_entrydata` accepts any chunk regardless of the
accumulated entry size, and `zs_entryend` records the sizes reduced modulo
2^32. -/
theorem zip_entry_size_limit_only_on_writeentry (sz chunk : Int)
    (st : ZipEntrySizes) :
    (sz > 0xFFFFFFFF → zs_writeentry sz = none) ∧
    (sz ≤ 0xFFFFFFFF → zs_writeentry sz = some ⟨sz, sz⟩) ∧
    zs_entrydata st chunk
      = some ⟨st.compressedSize + chunk, st.uncompressedSize + chunk⟩ := by
  refine ⟨fun h => ?_, fun h => ?_, rfl⟩
  · simp [zs_writeentry, h]
  · simp [zs_writeentry]
    omega

/-- C9, witness for the amended theorem: entry size 2^33 is rejected, size
100 is accepted, and a stored chunk accumulates without a limit check. -/
theorem zip_entry_size_limit_only_on_writeentry_witness :
    zs_writeentry (2 ^ 33) = none ∧
    zs_writeentry 100 = some ⟨100, 100⟩ ∧
    zs_entrydata ⟨0, 0⟩ 7 = some ⟨0 + 7, 0 + 7⟩ := by
  refine ⟨(zip_entry_size_limit_only_on_writeentry (2 ^ 33) 7 ⟨0, 0⟩).1 (by decide),
    (zip_entry_size_limit_only_on_writeentry 100 7 ⟨0, 0⟩).2.1 (by decide),
    (zip_entry_size_limit_only_on_writeentry 100 7 ⟨0, 0⟩).2.2⟩

/-! ### Helper lemmas: truncated division, modulus and 32-bit wrapping -/

theorem tmod_neg_arg (a b : Int) : (-a).tmod b = -(a.tmod b) := by
  rw [Int.tmod_def, Int.tmod_def, Int.neg_tdiv]
  ring

theorem tmod_bounds (a : Int) {b : Int} (hb : 0 < b) :
    -b < a.tmod b ∧ a.tmod b < b ∧
    (0 ≤ a → 0 ≤ a.tmod b) ∧ (a ≤ 0 → a.tmod b ≤ 0) := by
  rcases le_total 0 a with ha | ha
  · have h1 := Int.tmod_nonneg b ha
    have h2 := Int.tmod_lt_of_pos a hb
    exact ⟨by omega, h2, fun _ => h1, fun ha2 => by
      have hz : a = 0 := le_antisymm ha2 ha
      subst hz
      simp [Int.tmod_def]⟩
  · have h1 := Int.tmod_nonneg b (neg_nonneg.mpr ha)
    have h2 := Int.tmod_lt_of_pos (-a) hb
    rw [tmod_neg_arg] at h1 h2
    exact ⟨by omega, by omega, fun h0 => Int.tmod_nonneg b h0, fun _ => by omega⟩

theorem tdiv_floor25 (a : Int) :
    a.tdiv 25 - (if a.tmod 25 < 0 then 1 else 0) = a / 25 := by
  have he := Int.tmod_add_tdiv a 25
  obtain ⟨h1, h2, h3, h4⟩ := tmod_bounds a (show (0:Int) < 25 by norm_num)
  split_ifs with h <;> omega

theorem wrap32_eq_self {x : Int} (h1 : -2 ^ 31 ≤ x) (h2 : x < 2 ^ 31) :
    wrap32 x = x := by
  simp only [wrap32]
  omega

/-- Closed form of `ms_btime2hptime` with the two `int` truncations kept
explicit. -/
theorem ms_btime2hptime_closed_general (b : BTime) :
    ms_btime2hptime b =
      wrap32 (86400 * wrap32 (daysJan1 b.year + b.day - 1) + 3600 * b.hour
        + 60 * b.min + b.sec) * 1000000 + 100 * b.fract := by
  simp only [ms_btime2hptime, daysJan1, HPTMODULUS, tdiv_floor25, wrap32]
  by_cases h4 : (b.year - 1900) % 4 = 0
  · rw [if_pos h4]; omega
  · rw [if_neg h4]; omega

/-- Closed form of `ms_btime2hptime` on inputs whose day count and seconds
total stay inside 32-bit `int` range, where the truncations vanish. -/
theorem ms_btime2hptime_closed (b : BTime)
    (hd1 : -2 ^ 31 ≤ daysJan1 b.year + b.day - 1)
    (hd2 : daysJan1 b.year + b.day - 1 < 2 ^ 31)
    (hs1 : -2 ^ 31 ≤ 86400 * (daysJan1 b.year + b.day - 1) + 3600 * b.hour
      + 60 * b.min + b.sec)
    (hs2 : 86400 * (daysJan1 b.year + b.day - 1) + 3600 * b.hour + 60 * b.min
      + b.sec < 2 ^ 31) :
    ms_btime2hptime b =
      (86400 * (daysJan1 b.year + b.day - 1) + 3600 * b.hour + 60 * b.min
        + b.sec) * 1000000 + 100 * b.fract := by
  rw [ms_btime2hptime_closed_general, wrap32_eq_self hd1 hd2,
    wrap32_eq_self hs1 hs2]

/-! ### Calendar lemmas for the `gmtime` model -/

theorem daysJan1_succ (y : Int) :
    daysJan1 (y + 1) = daysJan1 y + 365 + (if isLeap y then 1 else 0) := by
  simp only [daysJan1, isLeap, Bool.or_eq_true, Bool.and_eq_true, beq_iff_eq,
    bne_iff_ne]
  split_ifs with h <;> omega

theorem daysJan1_mono {a b : Int} (h : a ≤ b) : daysJan1 a ≤ daysJan1 b := by
  simp only [daysJan1]
  omega

theorem gregC_facts (n : Int) :
    0 ≤ gregC n ∧ gregC n ≤ 3 ∧ 0 ≤ gregDoc n ∧ gregDoc n ≤ 36524 ∧
      (gregDoc n = 36524 → gregDoe n = 146096 ∧ gregC n = 3) := by
  have h1 : 0 ≤ gregDoe n ∧ gregDoe n < 146097 := by
    simp only [gregDoe]
    omega
  simp only [gregDoc, gregC]
  omega

theorem gregQ_facts (n : Int) :
    0 ≤ gregQ n ∧ gregQ n ≤ 24 ∧ 0 ≤ gregDoq n ∧ gregDoq n ≤ 1460 ∧
      (gregDoq n = 1460 ∧ gregQ n = 24 → gregDoc n = 36524) := by
  obtain ⟨h1, h2, h3, h4, h5⟩ := gregC_facts n
  simp only [gregDoq, gregQ]
  omega

theorem gregYq_facts (n : Int) :
    0 ≤ gregYq n ∧ gregYq n ≤ 3 ∧ 0 ≤ gregDoq n - 365 * gregYq n ∧
      gregDoq n - 365 * gregYq n ≤ 365 ∧
      (gregDoq n - 365 * gregYq n = 365 → gregDoq n = 1460 ∧ gregYq n = 3) := by
  obtain ⟨h1, h2, h3, h4, h5⟩ := gregQ_facts n
  simp only [gregYq]
  omega

theorem daysJan1_yearOfDays (n : Int) :
    daysJan1 (yearOfDays n) = 146097 * gregEra n + 36524 * gregC n
      + 1461 * gregQ n + 365 * gregYq n - 134774 := by
  obtain ⟨hc1, hc2, _, _, _⟩ := gregC_facts n
  obtain ⟨hq1, hq2, _, _, _⟩ := gregQ_facts n
  obtain ⟨hy1, hy2, _, _, _⟩ := gregYq_facts n
  have hY : yearOfDays n = 1601 + 400 * gregEra n + 100 * gregC n
      + 4 * gregQ n + gregYq n := rfl
  have g1 : (yearOfDays n - 1) / 4 = 400 + 100 * gregEra n + 25 * gregC n
      + gregQ n := by omega
  have g2 : (yearOfDays n - 1) / 100 = 16 + 4 * gregEra n + gregC n := by omega
  have g3 : (yearOfDays n - 1) / 400 = 4 + gregEra n := by omega
  simp only [daysJan1]
  rw [g1, g2, g3]
  omega

theorem yearOfDays_spec (n : Int) :
    daysJan1 (yearOfDays n) ≤ n ∧
    n < daysJan1 (yearOfDays n) + 365
      + (if isLeap (yearOfDays n) then 1 else 0) := by
  have hed : 146097 * gregEra n + gregDoe n = n + 134774 := by
    simp only [gregEra, gregDoe, gregDay1601]
    omega
  have hdoc : gregDoc n = gregDoe n - 36524 * gregC n := rfl
  have hdoq : gregDoq n = gregDoc n - 1461 * gregQ n := rfl
  obtain ⟨hc1, hc2, hc3, hc4, hc5⟩ := gregC_facts n
  obtain ⟨hq1, hq2, hq3, hq4, hq5⟩ := gregQ_facts n
  obtain ⟨hy1, hy2, hy3, hy4, hy5⟩ := gregYq_facts n
  have hD := daysJan1_yearOfDays n
  have hY : yearOfDays n = 1601 + 400 * gregEra n + 100 * gregC n
      + 4 * gregQ n + gregYq n := rfl
  refine ⟨by omega, ?_⟩
  split_ifs with hL
  · omega
  · simp only [isLeap, Bool.or_eq_true, Bool.and_eq_true, beq_iff_eq,
      bne_iff_ne, not_or, not_and, not_not] at hL
    by_contra hcon
    push_neg at hcon
    have hdoy : gregDoq n - 365 * gregYq n = 365 := by omega
    obtain ⟨hdoq1460, hyq3⟩ := hy5 hdoy
    rcases eq_or_ne (gregQ n) 24 with hq24 | hq24
    · obtain ⟨hdoe, hc3v⟩ := hc5 (hq5 ⟨hdoq1460, hq24⟩)
      exact hL.2 (by omega)
    · have hY4 : yearOfDays n % 4 = 0 := by omega
      have hY100 : ¬ yearOfDays n % 100 = 0 := by omega
      exact hY100 (hL.1 hY4)

theorem yearOfDays_unique {y n : Int}
    (h1 : daysJan1 y ≤ n)
    (h2 : n < daysJan1 y + 365 + (if isLeap y then 1 else 0)) :
    yearOfDays n = y := by
  obtain ⟨hs1, hs2⟩ := yearOfDays_spec n
  rcases lt_trichotomy (yearOfDays n) y with h | h | h
  · have hstep := daysJan1_succ (yearOfDays n)
    have hmono := daysJan1_mono (show yearOfDays n + 1 ≤ y by omega)
    omega
  · exact h
  · have hstep := daysJan1_succ y
    have hmono := daysJan1_mono (show y + 1 ≤ yearOfDays n by omega)
    omega

/-! ### Round-trip lemmas -/

theorem hptime2btime_exact (s f : Int) (hf1 : 0 ≤ f) (hf2 : f ≤ 9999)
    (hs1 : -2 ^ 31 ≤ s) (hs2 : s < 2 ^ 31) :
    ms_hptime2btime (s * 1000000 + 100 * f) =
      ⟨yearOfDays (s / 86400) - 1900 + 1900,
       s / 86400 - daysJan1 (yearOfDays (s / 86400)) + 1,
       s % 86400 / 3600, s % 86400 % 3600 / 60, s % 86400 % 60, f⟩ := by
  have e1 := Int.tmod_add_tdiv (s * 1000000 + 100 * f) 1000000
  obtain ⟨b1a, b1b, b1c, b1d⟩ :=
    tmod_bounds (s * 1000000 + 100 * f) (show (0:Int) < 1000000 by norm_num)
  simp only [ms_hptime2btime, MS_HPTIME2EPOCH, HPTMODULUS, gmtime,
    show ((1000000:Int) / 10000) = 100 from by norm_num]
  have hw1 : wrap32 ((s * 1000000 + 100 * f).tdiv 1000000)
      = (s * 1000000 + 100 * f).tdiv 1000000 := by
    simp only [wrap32]
    omega
  rw [hw1]
  have hw2 : wrap32 (s * 1000000 + 100 * f
      - (s * 1000000 + 100 * f).tdiv 1000000 * 1000000)
      = s * 1000000 + 100 * f
        - (s * 1000000 + 100 * f).tdiv 1000000 * 1000000 := by
    simp only [wrap32]
    omega
  rw [hw2]
  split_ifs with hC hF
  · exfalso
    have e2 := Int.tmod_add_tdiv
      (s * 1000000 + 100 * f
        - (s * 1000000 + 100 * f).tdiv 1000000 * 1000000) 100
    obtain ⟨b2a, b2b, b2c, b2d⟩ := tmod_bounds
      (s * 1000000 + 100 * f
        - (s * 1000000 + 100 * f).tdiv 1000000 * 1000000)
      (show (0:Int) < 100 by norm_num)
    omega
  · have hw3 : wrap32 ((s * 1000000 + 100 * f).tdiv 1000000 - 1)
        = (s * 1000000 + 100 * f).tdiv 1000000 - 1 := by
      simp only [wrap32]
      omega
    rw [hw3]
    have hs3 : (s * 1000000 + 100 * f).tdiv 1000000 - 1 = s := by omega
    rw [hs3]
    have e2 := Int.tmod_add_tdiv
      (s * 1000000 + 100 * f
        - (s * 1000000 + 100 * f).tdiv 1000000 * 1000000) 100
    simp only [BTime.mk.injEq, true_and]
    omega
  · have hs3 : (s * 1000000 + 100 * f).tdiv 1000000 = s := by omega
    rw [hs3]
    have e2 := Int.tmod_add_tdiv (s * 1000000 + 100 * f - s * 1000000) 100
    obtain ⟨b2a, b2b, b2c, b2d⟩ := tmod_bounds
      (s * 1000000 + 100 * f - s * 1000000) (show (0:Int) < 100 by norm_num)
    simp only [BTime.mk.injEq, true_and]
    omega

theorem hptime_roundtrip_floor (t : Int)
    (ht1 : -2 ^ 31 * 1000000 < t) (ht2 : t < 2 ^ 31 * 1000000) :
    ms_btime2hptime (ms_hptime2btime t) = t - t % 100 := by
  have e1 := Int.tmod_add_tdiv t 1000000
  obtain ⟨b1a, b1b, b1c, b1d⟩ :=
    tmod_bounds t (show (0:Int) < 1000000 by norm_num)
  have e2 := Int.tmod_add_tdiv (t - t.tdiv 1000000 * 1000000) 100
  obtain ⟨b2a, b2b, b2c, b2d⟩ := tmod_bounds (t - t.tdiv 1000000 * 1000000)
    (show (0:Int) < 100 by norm_num)
  rw [ms_btime2hptime_closed_general]
  simp only [ms_hptime2btime, MS_HPTIME2EPOCH, HPTMODULUS, gmtime,
    show ((1000000:Int) / 10000) = 100 from by norm_num,
    show (∀ z : Int, z - 1900 + 1900 = z) from fun z => by ring]
  have hw1 : wrap32 (t.tdiv 1000000) = t.tdiv 1000000 := by
    simp only [wrap32]
    omega
  rw [hw1]
  have hw2 : wrap32 (t - t.tdiv 1000000 * 1000000)
      = t - t.tdiv 1000000 * 1000000 := by
    simp only [wrap32]
    omega
  rw [hw2]
  have hw3 : wrap32 (t.tdiv 1000000 - 1) = t.tdiv 1000000 - 1 := by
    simp only [wrap32]
    omega
  rw [hw3]
  split_ifs with hC hF <;> simp only [wrap32] <;> omega

theorem BTime_build_eq (x : BTime) (a1 a2 a3 a4 a5 a6 : Int)
    (h1 : a1 = x.year) (h2 : a2 = x.day) (h3 : a3 = x.hour)
    (h4 : a4 = x.min) (h5 : a5 = x.sec) (h6 : a6 = x.fract) :
    BTime.mk a1 a2 a3 a4 a5 a6 = x := by
  subst h1
  subst h2
  subst h3
  subst h4
  subst h5
  subst h6
  rfl

theorem btime_roundtrip_core (b : BTime)
    (hy1 : 1902 ≤ b.year) (hy2 : b.year ≤ 2037)
    (hday : 1 ≤ b.day) (hday2 : b.day ≤ 365 + (if isLeap b.year then 1 else 0))
    (hhour1 : 0 ≤ b.hour) (hhour2 : b.hour ≤ 23)
    (hmin1 : 0 ≤ b.min) (hmin2 : b.min ≤ 59)
    (hsec1 : 0 ≤ b.sec) (hsec2 : b.sec ≤ 59)
    (hf1 : 0 ≤ b.fract) (hf2 : b.fract ≤ 9999) :
    ms_hptime2btime (ms_btime2hptime b) = b := by
  have hDJ : -24838 ≤ daysJan1 b.year ∧ daysJan1 b.year ≤ 24473 := by
    simp only [daysJan1]
    omega
  have hLb : (if isLeap b.year then (1:Int) else 0) = 0 ∨
      (if isLeap b.year then (1:Int) else 0) = 1 := by
    split_ifs <;> norm_num
  rw [ms_btime2hptime_closed b (by omega) (by omega) (by omega) (by omega)]
  set s := 86400 * (daysJan1 b.year + b.day - 1) + 3600 * b.hour + 60 * b.min
    + b.sec with hs
  rw [hptime2btime_exact s b.fract hf1 hf2 (by omega) (by omega)]
  have hD : s / 86400 = daysJan1 b.year + b.day - 1 := by omega
  have hSOD : s % 86400 = 3600 * b.hour + 60 * b.min + b.sec := by omega
  have hyear : yearOfDays (s / 86400) = b.year := by
    rw [hD]
    exact yearOfDays_unique (by omega) (by omega)
  rw [hyear, hD, hSOD]
  exact BTime_build_eq b _ _ _ _ _ _ (by omega) (by omega) (by omega)
    (by omega) (by omega) rfl

/-- C5, counterexample: the BTime with a leap second (sec = 60, valid per
the BTime field ranges, which allow 0-60) does not round-trip:
`ms_btime2hptime` folds the 60th second into the next minute, and
`ms_hptime2btime` returns min = 1, sec = 0 instead of the original
min = 0, sec = 60.  (Likewise day 366 of a non-leap year folds into the
next year.) -/
theorem btime_leap_second_roundtrip_fails :
    ms_hptime2btime (ms_btime2hptime ⟨1970, 1, 0, 0, 60, 0⟩)
      = ⟨1970, 1, 0, 1, 0, 0⟩ ∧
    (⟨1970, 1, 0, 1, 0, 0⟩ : BTime) ≠ ⟨1970, 1, 0, 0, 60, 0⟩ := by decide

/-- C5, amended: on the domain where the 32-bit `int`
intermediates cannot overflow, the btime-to-hptime-to-btime round trip is
the identity for every BTime with year 1902-2037, hour 0-23, minute 0-59,
second 0-59 (excluding the leap-second value 60), fractional 0-9999, and
day of year between 1 and the actual length of the year (365, or 366 in a
leap year); and for every tick count t with |t| below 2^31 seconds worth of
ticks (so the `int isec` epoch-second store cannot wrap),
hptime-to-btime-to-hptime equals t with the sub-quantum residue floored
away (t - t % 100, Euclidean %), i.e. the composite is the identity
modulo the 1/10000-second quantum, truncated toward earlier time and
never rounded, including negative (pre-epoch) tick counts.  Outside
these ranges the `int` arithmetic wraps (kept explicit as `wrap32` in
the definitions) and the program breaks the round trip. -/
theorem btime_hptime_roundtrip (b : BTime)
    (hy1 : 1902 ≤ b.year) (hy2 : b.year ≤ 2037)
    (hday : 1 ≤ b.day) (hday2 : b.day ≤ 365 + (if isLeap b.year then 1 else 0))
    (hhour1 : 0 ≤ b.hour) (hhour2 : b.hour ≤ 23)
    (hmin1 : 0 ≤ b.min) (hmin2 : b.min ≤ 59)
    (hsec1 : 0 ≤ b.sec) (hsec2 : b.sec ≤ 59)
    (hf1 : 0 ≤ b.fract) (hf2 : b.fract ≤ 9999) :
    ms_hptime2btime (ms_btime2hptime b) = b ∧
    ∀ t : Int, -2 ^ 31 * 1000000 < t → t < 2 ^ 31 * 1000000 →
      ms_btime2hptime (ms_hptime2btime t) = t - t % 100 :=
  ⟨btime_roundtrip_core b hy1 hy2 hday hday2 hhour1 hhour2 hmin1 hmin2
    hsec1 hsec2 hf1 hf2, fun t ht1 ht2 => hptime_roundtrip_floor t ht1 ht2⟩

/-- C5, witness for the amended theorem: the last 1/10000 second of 1969
(a pre-epoch BTime) round-trips exactly, and an int32-safe negative tick
count truncates to its quantum. -/
theorem btime_hptime_roundtrip_witness :
    ms_hptime2btime (ms_btime2hptime ⟨1969, 365, 23, 59, 59, 9999⟩)
      = ⟨1969, 365, 23, 59, 59, 9999⟩ ∧
    ms_btime2hptime (ms_hptime2btime (-123456789))
      = -123456789 - (-123456789) % 100 := by
  have h := btime_hptime_roundtrip ⟨1969, 365, 23, 59, 59, 9999⟩ (by decide)
    (by decide) (by decide) (by decide) (by decide) (by decide) (by decide)
    (by decide) (by decide) (by decide) (by decide) (by decide)
  exact ⟨h.1, h.2 (-123456789) (by decide) (by decide)⟩

end Mseed2Sac
